import Mathlib

/-!
# Verification of the ruruby parser and VM core

A shallow embedding, in Lean 4, of the parts of the ruruby interpreter
(a Ruby-flavored scripting language implementation in Rust) that its
specification describes: the context-sensitive recursive-descent parser
(`src/parser.rs`), the local-variable collector, the bytecode size table
(`src/vm/vm_inst.rs`), and the Integer/Range builtin methods
(`src/vm/integer.rs`, `src/builtin/range.rs`).

Pure Rust functions become Lean functions; the parser's mutable `self`
becomes explicit state passing (`PState`); fallible operations return
`Except`.  Recursion in the mutually recursive descent is made total by a
`fuel` parameter; running out of fuel is a distinct outcome (`PErr.outOfFuel`)
that never arises for the concrete inputs evaluated here.

Modules of the repository that are absent from the sources at hand
(`node.rs`, `util.rs`, `error.rs`, the lexer and the VM dispatch loop) are
modelled from the specification; every such definition is marked
`Modelled from the spec:` in its doc comment.  Everything else is a direct
transcription of the Rust source.
-/

set_option autoImplicit false

namespace Ruruby

/-- Modelled from the spec: `Location (Loc)` is a half-open byte range
`[start, end)` into the source (the `Loc` type lives in the missing
`util.rs`).  Fields are byte offsets. -/
structure Loc where
  start : Nat
  stop : Nat
  deriving DecidableEq, Repr

/-- Modelled from the spec: `merge(a,b) = (min start, max end)`. -/
def Loc.merge (a b : Loc) : Loc :=
  ⟨min a.start b.start, max a.stop b.stop⟩

/-- Modelled from the spec: `IdentId` interns a name; equal ids ⇔ equal
names and `intern` is idempotent (`IdentifierTable` lives in the missing
`util.rs`).  We therefore represent an `IdentId` by the interned name
itself, which realises exactly that contract. -/
abbrev IdentId := String

/-- Modelled from the spec: id 0 is reserved and denotes "no/placeholder
identifier" (used by `parse_class` for an absent superclass).  In the
name-as-id representation we use the empty string, which no lexed
identifier can be. -/
def IdentId.placeholder : IdentId := ""

/-- `LvarId(usize)`: index of a local variable within a single lexical
scope frame (`parser.rs`). -/
abbrev LvarId := Nat

/-- Lookup in the association-list model of `HashMap<IdentId, LvarId>`:
first entry whose key matches. -/
def lvarLookup (t : List (IdentId × LvarId)) (k : IdentId) : Option LvarId :=
  match t with
  | [] => none
  | (k', v) :: rest => if k' = k then some v else lvarLookup rest k

/-- `HashMap::insert`: replace the value of an existing key in place and
return the old value, or append a fresh entry and return `none`. -/
def lvarTableInsert (t : List (IdentId × LvarId)) (k : IdentId) (v : LvarId) :
    Option LvarId × List (IdentId × LvarId) :=
  match t with
  | [] => (none, [(k, v)])
  | (k', v') :: rest =>
    if k' = k then (some v', (k', v) :: rest)
    else
      let (old, rest') := lvarTableInsert rest k v
      (old, (k', v') :: rest')

/-- `LvarCollector` (`parser.rs`): per-scope mapping `IdentId → LvarId`
plus at most one block-parameter slot.  The `HashMap` is modelled as an
association list (keys are unique; entries appear in insertion order). -/
structure LvarCollector where
  id : Nat
  table : List (IdentId × LvarId)
  block : Option LvarId
  deriving DecidableEq, Repr

namespace LvarCollector

/-- `LvarCollector::new`. -/
def new : LvarCollector := ⟨0, [], none⟩

/-- `LvarCollector::insert`: return the existing id for `val`, or assign
the next fresh id. -/
def insert (c : LvarCollector) (val : IdentId) : LvarId × LvarCollector :=
  match lvarLookup c.table val with
  | some i => (i, c)
  | none => (c.id, ⟨c.id + 1, c.table ++ [(val, c.id)], c.block⟩)

/-- `LvarCollector::insert_new`: insert `val` with the next fresh id; if
`val` was already present, the table entry is still overwritten (the Rust
code mutates before detecting the duplicate) but the operation reports
failure and `id` is not bumped. -/
def insert_new (c : LvarCollector) (val : IdentId) :
    Except Unit LvarId × LvarCollector :=
  let (old, t) := lvarTableInsert c.table val c.id
  match old with
  | some _ => (.error (), ⟨c.id, t, c.block⟩)
  | none => (.ok c.id, ⟨c.id + 1, t, c.block⟩)

/-- `LvarCollector::insert_block_param`: `insert_new` and remember the
slot as the block parameter. -/
def insert_block_param (c : LvarCollector) (val : IdentId) :
    Except Unit LvarId × LvarCollector :=
  match c.insert_new val with
  | (.ok lvar, c') => (.ok lvar, ⟨c'.id, c'.table, some lvar⟩)
  | (.error e, c') => (.error e, c')

/-- `LvarCollector::get`. -/
def get (c : LvarCollector) (val : IdentId) : Option LvarId :=
  lvarLookup c.table val

end LvarCollector

/-- `ContextKind` (`parser.rs`): the kind of a parser scope frame. -/
inductive ContextKind where
  | Class
  | Method
  | Block
  deriving DecidableEq, Repr

/-- `Context` (`parser.rs`): a parser scope frame. -/
structure Context where
  lvar : LvarCollector
  kind : ContextKind
  deriving DecidableEq, Repr

namespace Context

/-- `Context::new_method`. -/
def new_method : Context := ⟨LvarCollector.new, .Method⟩

/-- `Context::new_class`. -/
def new_class (lvar_collector : Option LvarCollector) : Context :=
  ⟨lvar_collector.getD LvarCollector.new, .Class⟩

/-- `Context::new_block`. -/
def new_block : Context := ⟨LvarCollector.new, .Block⟩

end Context

/-- `Parser::is_local_var` (`parser.rs` lines 240-252), as a function of
the context stack alone (the Rust loop walks `context_stack` from the
innermost frame outward; we represent the stack head-innermost). -/
def is_local_var (stack : List Context) (id : IdentId) : Bool :=
  match stack with
  | [] => false
  | c :: rest =>
    if (lvarLookup c.lvar.table id).isSome then true
    else if c.kind ≠ ContextKind.Block then false
    else is_local_var rest id

/-! ## Bytecode instruction table (`src/vm/vm_inst.rs`) -/

namespace Inst

def PUSH_FIXNUM : Nat := 1
def PUSH_FLONUM : Nat := 2
def PUSH_TRUE : Nat := 3
def PUSH_FALSE : Nat := 4
def PUSH_NIL : Nat := 5
def PUSH_STRING : Nat := 6
def PUSH_SYMBOL : Nat := 7
def PUSH_SELF : Nat := 8

def ADD : Nat := 10
def SUB : Nat := 11
def MUL : Nat := 12
def DIV : Nat := 13
def REM : Nat := 14
def EQ : Nat := 15
def NE : Nat := 16
def TEQ : Nat := 17
def GT : Nat := 18
def GE : Nat := 19
def NOT : Nat := 20
def SHR : Nat := 21
def SHL : Nat := 22
def BIT_OR : Nat := 23
def BIT_AND : Nat := 24
def BIT_XOR : Nat := 25
def BIT_NOT : Nat := 26

def ADDI : Nat := 27
def SUBI : Nat := 28
def POW : Nat := 29

def SET_LOCAL : Nat := 30
def GET_LOCAL : Nat := 31
def GET_CONST : Nat := 32
def SET_CONST : Nat := 33
def GET_CONST_TOP : Nat := 34
def GET_SCOPE : Nat := 35

def GET_INSTANCE_VAR : Nat := 36
def SET_INSTANCE_VAR : Nat := 37
def GET_GLOBAL_VAR : Nat := 90
def SET_GLOBAL_VAR : Nat := 91
def GET_ARRAY_ELEM : Nat := 38
def SET_ARRAY_ELEM : Nat := 39

def SEND : Nat := 40
def SEND_SELF : Nat := 41

def CHECK_LOCAL : Nat := 42

def CREATE_RANGE : Nat := 50
def CREATE_ARRAY : Nat := 51
def CREATE_PROC : Nat := 52
def CREATE_HASH : Nat := 53
def CREATE_REGEXP : Nat := 54

def POP : Nat := 60
def DUP : Nat := 63
def TAKE : Nat := 64
def SPLAT : Nat := 65
def CONCAT_STRING : Nat := 61
def TO_S : Nat := 62

def DEF_CLASS : Nat := 70
def DEF_METHOD : Nat := 71
def DEF_CLASS_METHOD : Nat := 72

def JMP : Nat := 80
def JMP_IF_FALSE : Nat := 81
def END_ : Nat := 0
def RETURN : Nat := 82
def OPT_CASE : Nat := 83

/-- `Inst::inst_size` (`vm_inst.rs` lines 158-223): the fixed byte size
(including the opcode byte) of each instruction.  The Rust `match` with
or-patterns over the opcode constants becomes a chain of membership tests
in the same groups, in the same order, with the same `_ => 1` default. -/
def inst_size (inst : Nat) : Nat :=
  if inst = END_ ∨ inst = PUSH_NIL ∨ inst = PUSH_TRUE ∨ inst = PUSH_FALSE ∨
      inst = PUSH_SELF ∨ inst = SUB ∨ inst = DIV ∨ inst = REM ∨
      inst = POW ∨ inst = EQ ∨ inst = NE ∨ inst = GT ∨ inst = GE ∨
      inst = NOT ∨ inst = SHR ∨ inst = SHL ∨ inst = BIT_OR ∨
      inst = BIT_AND ∨ inst = BIT_XOR ∨ inst = BIT_NOT ∨
      inst = CONCAT_STRING ∨ inst = CREATE_RANGE ∨ inst = CREATE_REGEXP ∨
      inst = TO_S ∨ inst = SPLAT ∨ inst = POP ∨ inst = RETURN then 1
  else if inst = PUSH_STRING ∨ inst = PUSH_SYMBOL ∨ inst = GET_CONST ∨
      inst = SET_CONST ∨ inst = GET_CONST_TOP ∨ inst = GET_SCOPE ∨
      inst = GET_INSTANCE_VAR ∨ inst = SET_INSTANCE_VAR ∨
      inst = GET_GLOBAL_VAR ∨ inst = SET_GLOBAL_VAR ∨
      inst = GET_ARRAY_ELEM ∨ inst = SET_ARRAY_ELEM ∨
      inst = CREATE_ARRAY ∨ inst = CREATE_PROC ∨ inst = JMP ∨
      inst = JMP_IF_FALSE ∨ inst = DUP ∨ inst = TAKE ∨ inst = ADD ∨
      inst = MUL ∨ inst = ADDI ∨ inst = SUBI ∨ inst = CREATE_HASH then 5
  else if inst = PUSH_FIXNUM ∨ inst = PUSH_FLONUM ∨ inst = SET_LOCAL ∨
      inst = GET_LOCAL ∨ inst = DEF_METHOD ∨ inst = DEF_CLASS_METHOD then 9
  else if inst = DEF_CLASS then 10
  else if inst = OPT_CASE then 13
  else if inst = SEND ∨ inst = SEND_SELF then 21
  else 1

end Inst

/-! ## Values and builtin methods (`src/vm/integer.rs`, `src/builtin/range.rs`)

The `Value` representation and the VM dispatch loop live in modules that
are not among the sources at hand; they are modelled from the spec's §3
data model ("a tagged sum of Nil, Bool, Fixnum(i64), …, Range(start, end,
exclude_end), Array, …").  The builtin functions below are transcribed
from `integer.rs` and `range.rs`; a block argument (`Option<MethodRef>` +
`vm_run`) is modelled from the spec as an abstract evaluator
`Int → Except BuiltinErr Value` invoked once per `vm_run` call, and each
builtin additionally returns the list of argument values it passed to the
block, in call order, so that "invokes the block with …" is statable. -/

/-- Modelled from the spec: the tagged `Value` sum (§3), restricted to the
variants the verified builtins touch. -/
inductive Value where
  | nil
  | bool (b : Bool)
  | fixnum (i : Int)
  | range (start stop : Value) (exclude : Bool)
  | array (elems : List Value)

/-- `RangeInfo` (`range.rs`): the payload of a Range object. -/
structure RangeInfo where
  start : Value
  stop : Value
  exclude : Bool

/-- Modelled from the spec: `Value::as_range` returns the range payload
when the value is a Range object. -/
def Value.as_range : Value → Option RangeInfo
  | .range s e ex => some ⟨s, e, ex⟩
  | _ => none

/-- Modelled from the spec: `Value::as_fixnum`. -/
def Value.as_fixnum : Value → Option Int
  | .fixnum i => some i
  | _ => none

/-- Modelled from the spec: the error taxonomy of §7 restricted to what
the verified builtins raise, plus a marker for Rust panics
(`unwrap` on the wrong variant), which are not `RubyError`s. -/
inductive BuiltinErr where
  | argumentErr (msg : String)
  | typeErr (msg : String)
  | panicked
  deriving DecidableEq, Repr

/-- Modelled from the spec: `Value::expect_fixnum(vm, msg)` yields the
integer or raises a type error mentioning `msg`. -/
def Value.expect_fixnum (v : Value) (msg : String) : Except BuiltinErr Int :=
  match v with
  | .fixnum i => .ok i
  | _ => .error (.typeErr msg)

/-- The list `[a, a+1, …, b-1]` iterated by Rust's `for i in a..b`
(empty when `b ≤ a`). -/
def intRange (a b : Int) : List Int :=
  (List.range (b - a).toNat).map (fun (k : Nat) => a + (k : Int))

/-- Run the abstract block evaluator over a list of fixnum arguments,
discarding each result (`vm_run` followed by `stack_pop`); return the
outcome and the arguments actually passed, in order (an error stops the
iteration, as `?` does in Rust). -/
def runBlockList (f : Int → Except BuiltinErr Value) :
    List Int → Except BuiltinErr Unit × List Int
  | [] => (.ok (), [])
  | i :: rest =>
    match f i with
    | .error e => (.error e, [i])
    | .ok _ =>
      let (r, tr) := runBlockList f rest
      (r, i :: tr)

/-- Run the abstract block evaluator over a list of fixnum arguments,
collecting each result (`vm_run` followed by pushing `stack_pop` onto
`res`); return the outcome (the collected values on success) and the
arguments passed, in order. -/
def mapBlockList (f : Int → Except BuiltinErr Value) :
    List Int → Except BuiltinErr (List Value) × List Int
  | [] => (.ok [], [])
  | i :: rest =>
    match f i with
    | .error e => (.error e, [i])
    | .ok v =>
      match mapBlockList f rest with
      | (.error e, tr) => (.error e, i :: tr)
      | (.ok vs, tr) => (.ok (v :: vs), i :: tr)

/-- `integer_times` (`integer.rs` lines 15-40).  `receiver` is the `self`
value; the result pairs the `VMResult` with the trace of block-call
arguments.  `num < 1` and a missing block return nil without running the
block; otherwise the block runs for `i in 0..num` and the receiver is
returned. -/
def integer_times (receiver : Value)
    (block : Option (Int → Except BuiltinErr Value)) :
    Except BuiltinErr Value × List Int :=
  match receiver.as_fixnum with
  | none => (.error .panicked, [])
  | some num =>
    if num < 1 then (.ok Value.nil, [])
    else
      match block with
      | none => (.ok Value.nil, [])
      | some f =>
        match runBlockList f (intRange 0 num) with
        | (.ok _, tr) => (.ok receiver, tr)
        | (.error e, tr) => (.error e, tr)

/-- `range_each` (`range.rs` lines 118-133): without a block, an argument
error; with one, run it for `i in start..end'` where
`end' = end + (exclude ? 0 : 1)` and return `self`. -/
def range_each (self_value : Value)
    (block : Option (Int → Except BuiltinErr Value)) :
    Except BuiltinErr Value × List Int :=
  match self_value.as_range with
  | none => (.error .panicked, [])
  | some range =>
    match block with
    | none => (.error (.argumentErr "Currently, needs block."), [])
    | some f =>
      match range.start.expect_fixnum "Start" with
      | .error e => (.error e, [])
      | .ok start =>
        match range.stop.expect_fixnum "End" with
        | .error e => (.error e, [])
        | .ok stop =>
          let stop := stop + (if range.exclude then 0 else 1)
          match runBlockList f (intRange start stop) with
          | (.ok _, tr) => (.ok self_value, tr)
          | (.error e, tr) => (.error e, tr)

/-- `range_map` (`range.rs` lines 99-116): without a block, an argument
error; with one, run it for `i in start..end'` and return the array of
the block's results. -/
def range_map (self_value : Value)
    (block : Option (Int → Except BuiltinErr Value)) :
    Except BuiltinErr Value × List Int :=
  match self_value.as_range with
  | none => (.error .panicked, [])
  | some range =>
    match block with
    | none => (.error (.argumentErr "Currently, needs block."), [])
    | some f =>
      match range.start.expect_fixnum "Start" with
      | .error e => (.error e, [])
      | .ok start =>
        match range.stop.expect_fixnum "End" with
        | .error e => (.error e, [])
        | .ok stop =>
          let stop := stop + (if range.exclude then 0 else 1)
          match mapBlockList f (intRange start stop) with
          | (.ok res, tr) => (.ok (Value.array res), tr)
          | (.error e, tr) => (.error e, tr)

/-- `range_toa` (`range.rs` lines 135-150): collect `start..end`
(inclusive) or `start..end` (exclusive, `for i in start..end`) into an
array of fixnums. -/
def range_toa (self_value : Value) : Except BuiltinErr Value :=
  match self_value.as_range with
  | none => .error .panicked
  | some range =>
    match range.start.expect_fixnum "Range.start" with
    | .error e => .error e
    | .ok start =>
      match range.stop.expect_fixnum "Range.end" with
      | .error e => .error e
      | .ok stop =>
        if range.exclude then
          .ok (Value.array ((intRange start stop).map Value.fixnum))
        else
          .ok (Value.array ((intRange start (stop + 1)).map Value.fixnum))

/-! ## Tokens (`src/token.rs` and the lexer contract)

`token.rs` in the sources at hand is an earlier revision than
`parser.rs` (the spec notes the later parser revision is authoritative);
the kinds below are the ones `parser.rs` consumes.  `is_term` is
transcribed from `token.rs`; `check_stmt_end` from the definition
recorded inside `parse_comp_stmt` in `parser.rs`. -/

/-- `BinOp` (from the missing `node.rs`; variants as used by
`parser.rs`). -/
inductive BinOp where
  | Add | Sub | Mul | Div | Rem | Exp
  | Eq | Ne | TEq | Gt | Ge | Lt | Le
  | LAnd | LOr
  | BitOr | BitXor | BitAnd | Shl | Shr
  deriving DecidableEq, Repr

/-- `UnOp` (from the missing `node.rs`). -/
inductive UnOp where
  | Not | BitNot
  deriving DecidableEq, Repr

/-- `Reserved` words, per the spec's token grammar and `parser.rs`
usage. -/
inductive Reserved where
  | If | Unless | While | Until | Do | For | In
  | Return | Break | Next | Case | When | Then
  | Def | Class | Module | Begin | End | Else | Elsif
  | True | False | Nil | Self_ | And | Or | Not
  deriving DecidableEq, Repr

/-- Punctuators, per `parser.rs` usage. -/
inductive Punct where
  | LParen | RParen | LBracket | RBracket | LBrace | RBrace
  | Comma | Dot | Colon | Scope | Semi
  | Assign | AssignOp (op : BinOp)
  | Question | Arrow | FatArrow | Range2 | Range3
  | Plus | Minus | Mul | Div | Rem | DMul
  | Eq | Ne | TEq | Gt | Ge | Lt | Le
  | LAnd | LOr | BitOr | BitXor | BitAnd | BitNot | Shl | Shr | Not
  deriving DecidableEq, Repr

/-- `TokenKind`, per `parser.rs` usage (the float literal's `f64` payload
is carried opaquely as an `Int`; the parser only ever negates it). -/
inductive TokenKind where
  | Ident (name : String) (hasSuffix : Bool)
  | InstanceVar (name : String)
  | GlobalVar (name : String)
  | Const (name : String)
  | NumLit (num : Int)
  | FloatLit (num : Int)
  | StringLit (s : String)
  | OpenDoubleQuote (s : String)
  | IntermediateDoubleQuote (s : String)
  | CloseDoubleQuote (s : String)
  | Reserved (r : Reserved)
  | Punct (p : Punct)
  | LineTerm
  | EOF
  deriving DecidableEq, Repr

/-- `Token = Annot<TokenKind>`: a kind together with its location. -/
structure Token where
  kind : TokenKind
  loc : Loc
  deriving DecidableEq, Repr

/-- `Token::is_line_term` (`token.rs`). -/
def Token.is_line_term (t : Token) : Bool :=
  t.kind = TokenKind.LineTerm

/-- `Token::is_eof` (`token.rs`). -/
def Token.is_eof (t : Token) : Bool :=
  t.kind = TokenKind.EOF

/-- `Token::is_term` (`token.rs`): line terminator, `;`, or EOF. -/
def Token.is_term (t : Token) : Bool :=
  match t.kind with
  | .LineTerm | .EOF | .Punct .Semi => true
  | _ => false

/-- `Token::check_stmt_end`, per the definition recorded in
`parse_comp_stmt` (`parser.rs` lines 507-522). -/
def Token.check_stmt_end (t : Token) : Bool :=
  match t.kind with
  | .EOF | .IntermediateDoubleQuote _ | .CloseDoubleQuote _ => true
  | .Reserved r =>
    match r with
    | .Else | .Elsif | .End | .When => true
    | _ => false
  | .Punct p =>
    match p with
    | .RParen | .RBrace | .RBracket => true
    | _ => false
  | _ => false

/-- Modelled from the spec: `Token::can_be_symbol` — exactly the kinds
`Parser::token_as_symbol` handles. -/
def Token.can_be_symbol (t : Token) : Bool :=
  match t.kind with
  | .Ident _ _ | .Const _ | .InstanceVar _ | .StringLit _ | .Reserved _ => true
  | _ => false

/-- Modelled from the spec: `Lexer::get_string_from_reserved` (the
reserved-word spellings of the token grammar). -/
def Reserved.toString : Reserved → String
  | .If => "if" | .Unless => "unless" | .While => "while" | .Until => "until"
  | .Do => "do" | .For => "for" | .In => "in" | .Return => "return"
  | .Break => "break" | .Next => "next" | .Case => "case" | .When => "when"
  | .Then => "then" | .Def => "def" | .Class => "class" | .Module => "module"
  | .Begin => "begin" | .End => "end" | .Else => "else" | .Elsif => "elsif"
  | .True => "true" | .False => "false" | .Nil => "nil" | .Self_ => "self"
  | .And => "and" | .Or => "or" | .Not => "not"

/-! ## AST nodes (modelled from the spec §3 and `parser.rs` usage)

`node.rs` is among the missing modules; the node kinds and the
`Node::new_*` constructor API are modelled from the spec's AST
description and from how `parser.rs` builds them.  Constructors to which
`parser.rs` passes no explicit location compute a merged location here;
no claim depends on those locations. -/

mutual

/-- An AST node: `(kind, loc)`. -/
inductive Node where
  | mk (kind : NodeKind) (loc : Loc)

/-- The node kinds built by `parser.rs`. -/
inductive NodeKind where
  | CompStmt (nodes : List Node)
  | Ident (id : IdentId) (hasSuffix : Bool)
  | LocalVar (id : IdentId)
  | InstanceVar (id : IdentId)
  | GlobalVar (id : IdentId)
  | Const (id : IdentId) (toplevel : Bool)
  | Integer (num : Int)
  | Float (num : Int)
  | StringLit (s : String)
  | InterporatedString (nodes : List Node)
  | Symbol (id : IdentId)
  | BoolLit (b : Bool)
  | NilLit
  | SelfValue
  | RangeNode (start stop : Node) (exclude : Bool)
  | ArrayLit (nodes : List Node)
  | ArrayMember (ary : Node) (index : List Node)
  | HashLit (pairs : List (Node × Node))
  | Splat (node : Node)
  | BinOpNode (op : BinOp) (lhs rhs : Node)
  | UnOpNode (op : UnOp) (node : Node)
  | If (cond then_ else_ : Node)
  | While (cond body : Node)
  | For (param iter body : Node)
  | Case (cond : Node) (branches : List (List Node × Node)) (else_ : Node)
  | MulAssign (mlhs mrhs : List Node)
  | Send (receiver : Node) (method : IdentId) (args : List Node)
      (kwArgs : List (IdentId × Node)) (block : Option Node)
      (completed : Bool)
  | Scope (base : Node) (id : IdentId)
  | Param (id : IdentId)
  | OptionalParam (id : IdentId) (default : Node)
  | KeywordParam (id : IdentId) (default : Option Node)
  | SplatParam (id : IdentId)
  | PostParam (id : IdentId)
  | BlockParam (id : IdentId)
  | ProcLit (params : List Node) (body : Node) (lvar : LvarCollector)
  | MethodDecl (id : IdentId) (params : List Node) (body : Node)
      (lvar : LvarCollector)
  | ClassMethodDecl (id : IdentId) (params : List Node) (body : Node)
      (lvar : LvarCollector)
  | ClassDecl (id : IdentId) (superclass : Node) (body : Node)
      (lvar : LvarCollector) (isModule : Bool)
  | ReturnNode (val : Node)
  | BreakNode
  | NextNode

end

/-- The node's kind. -/
def Node.kind : Node → NodeKind
  | .mk k _ => k

/-- The node's location. -/
def Node.loc : Node → Loc
  | .mk _ l => l

namespace Node

def new (kind : NodeKind) (loc : Loc) : Node := .mk kind loc

def new_comp_stmt (nodes : List Node) (loc : Loc) : Node :=
  .mk (.CompStmt nodes) loc

def new_identifier (id : IdentId) (hasSuffix : Bool) (loc : Loc) : Node :=
  .mk (.Ident id hasSuffix) loc

def new_lvar (id : IdentId) (loc : Loc) : Node := .mk (.LocalVar id) loc

def new_instance_var (id : IdentId) (loc : Loc) : Node :=
  .mk (.InstanceVar id) loc

def new_global_var (id : IdentId) (loc : Loc) : Node :=
  .mk (.GlobalVar id) loc

def new_const (id : IdentId) (toplevel : Bool) (loc : Loc) : Node :=
  .mk (.Const id toplevel) loc

def new_integer (num : Int) (loc : Loc) : Node := .mk (.Integer num) loc

def new_float (num : Int) (loc : Loc) : Node := .mk (.Float num) loc

def new_string (s : String) (loc : Loc) : Node := .mk (.StringLit s) loc

def new_interporated_string (nodes : List Node) (loc : Loc) : Node :=
  .mk (.InterporatedString nodes) loc

def new_symbol (id : IdentId) (loc : Loc) : Node := .mk (.Symbol id) loc

def new_bool (b : Bool) (loc : Loc) : Node := .mk (.BoolLit b) loc

def new_nil (loc : Loc) : Node := .mk .NilLit loc

def new_self (loc : Loc) : Node := .mk .SelfValue loc

def new_range (start stop : Node) (exclude : Bool) (loc : Loc) : Node :=
  .mk (.RangeNode start stop exclude) loc

def new_array (nodes : List Node) (loc : Loc) : Node :=
  .mk (.ArrayLit nodes) loc

/-- Modelled from the spec: `Node::new_array_member` (array-index
postfix); the location is the merge of the array part and the indices. -/
def new_array_member (ary : Node) (index : List Node) : Node :=
  .mk (.ArrayMember ary index) (index.foldl (fun l n => l.merge n.loc) ary.loc)

def new_hash (pairs : List (Node × Node)) (loc : Loc) : Node :=
  .mk (.HashLit pairs) loc

def new_splat (node : Node) (loc : Loc) : Node := .mk (.Splat node) loc

/-- Modelled from the spec: `Node::new_binop` computes its location from
the operands. -/
def new_binop (op : BinOp) (lhs rhs : Node) : Node :=
  .mk (.BinOpNode op lhs rhs) (lhs.loc.merge rhs.loc)

def new_unop (op : UnOp) (node : Node) (loc : Loc) : Node :=
  .mk (.UnOpNode op node) (loc.merge node.loc)

def new_if (cond then_ else_ : Node) (loc : Loc) : Node :=
  .mk (.If cond then_ else_) loc

def new_while (cond body : Node) (loc : Loc) : Node :=
  .mk (.While cond body) loc

def new_case (cond : Node) (branches : List (List Node × Node))
    (else_ : Node) (loc : Loc) : Node :=
  .mk (.Case cond branches else_) loc

/-- Modelled from the spec: `Node::new_mul_assign` computes its location
from the targets and sources. -/
def new_mul_assign (mlhs mrhs : List Node) : Node :=
  .mk (.MulAssign mlhs mrhs)
    ((mlhs ++ mrhs).foldl (fun l n => l.merge n.loc)
      ((mlhs.headD (.mk .NilLit ⟨0, 0⟩)).loc))

def new_send (receiver : Node) (method : IdentId) (args : List Node)
    (kwArgs : List (IdentId × Node)) (block : Option Node)
    (completed : Bool) (loc : Loc) : Node :=
  .mk (.Send receiver method args kwArgs block completed) loc

def new_scope (base : Node) (id : IdentId) (loc : Loc) : Node :=
  .mk (.Scope base id) loc

def new_param (id : IdentId) (loc : Loc) : Node := .mk (.Param id) loc

def new_optional_param (id : IdentId) (default : Node) (loc : Loc) : Node :=
  .mk (.OptionalParam id default) loc

def new_keyword_param (id : IdentId) (default : Option Node) (loc : Loc) :
    Node :=
  .mk (.KeywordParam id default) loc

def new_splat_param (id : IdentId) (loc : Loc) : Node :=
  .mk (.SplatParam id) loc

def new_post_param (id : IdentId) (loc : Loc) : Node :=
  .mk (.PostParam id) loc

def new_block_param (id : IdentId) (loc : Loc) : Node :=
  .mk (.BlockParam id) loc

def new_proc (params : List Node) (body : Node) (lvar : LvarCollector)
    (loc : Loc) : Node :=
  .mk (.ProcLit params body lvar) loc

/-- Modelled from the spec: `Node::new_method_decl`; the location of a
declaration node is not inspected by any claim. -/
def new_method_decl (id : IdentId) (params : List Node) (body : Node)
    (lvar : LvarCollector) : Node :=
  .mk (.MethodDecl id params body lvar) body.loc

/-- Modelled from the spec: `Node::new_class_method_decl`. -/
def new_class_method_decl (id : IdentId) (params : List Node) (body : Node)
    (lvar : LvarCollector) : Node :=
  .mk (.ClassMethodDecl id params body lvar) body.loc

def new_class_decl (id : IdentId) (superclass : Node) (body : Node)
    (lvar : LvarCollector) (isModule : Bool) (loc : Loc) : Node :=
  .mk (.ClassDecl id superclass body lvar isModule) loc

def new_return (val : Node) (loc : Loc) : Node := .mk (.ReturnNode val) loc

def new_break (loc : Loc) : Node := .mk .BreakNode loc

def new_next (loc : Loc) : Node := .mk .NextNode loc

/-- Modelled from the spec: a node `is_operation` when it occupies a
method-name position not yet resolved as a local — i.e. it is a bare
identifier node (glossary: "Operation"). -/
def is_operation (n : Node) : Bool :=
  match n.kind with
  | .Ident _ _ => true
  | _ => false

/-- Modelled from the spec: `Node::as_method_name` — the identifier of an
operation node. -/
def as_method_name (n : Node) : Option IdentId :=
  match n.kind with
  | .Ident id _ => some id
  | _ => none

end Node

/-! ## Parser state and context-free helpers (`src/parser.rs`) -/

/-- `ParseErrKind` (from the missing `error.rs`, per spec §7). -/
inductive ParseErrKind where
  | SyntaxError (msg : String)
  | UnexpectedEOF
  deriving DecidableEq, Repr

/-- Modelled from the spec: a parse error carries its kind, location and
the REPL nesting level (`RubyError::new_parse_err`). -/
structure RubyError where
  kind : ParseErrKind
  loc : Loc
  level : Nat
  deriving DecidableEq, Repr

/-- The outcome space of the embedded parser: a genuine `RubyError`, fuel
exhaustion (the Rust recursion is unbounded), or a Rust panic
(`unwrap`/`unreachable!` on a broken invariant — never reached from a
well-formed initial state). -/
inductive PErr where
  | rubyErr (e : RubyError)
  | outOfFuel
  | panicked
  deriving DecidableEq, Repr

/-- `Parser::error_unexpected`. -/
def error_unexpected (loc : Loc) (msg : String) : PErr :=
  .rubyErr ⟨.SyntaxError msg, loc, 0⟩

/-- `Parser::error_eof`. -/
def error_eof (loc : Loc) : PErr :=
  .rubyErr ⟨.UnexpectedEOF, loc, 0⟩

/-- The mutable fields of `Parser` that the parsing functions touch
(the `ident_table` is subsumed by the name-as-id model of `IdentId`).
`context_stack` is kept head-innermost: Rust pushes and pops at the Vec's
end and scans from the end. -/
structure PState where
  tokens : List Token
  cursor : Nat
  prevCursor : Nat
  contextStack : List Context
  stateSave : List (Nat × Nat)
  deriving DecidableEq, Repr

namespace PState

/-- The token at index `i`.  The lexer contract guarantees an
EOF-terminated token vector, so the out-of-range default (EOF) is never
observed from a well-formed state. -/
def nthToken (s : PState) (i : Nat) : Token :=
  s.tokens.getD i ⟨.EOF, ⟨0, 0⟩⟩

/-- `Parser::peek`: next token, skipping line terminators. -/
def peekFrom : List Token → Token
  | [] => ⟨.EOF, ⟨0, 0⟩⟩
  | t :: ts => if t.is_eof || !t.is_line_term then t else peekFrom ts

/-- `Parser::peek`. -/
def peek (s : PState) : Token :=
  peekFrom (s.tokens.drop s.cursor)

/-- `Parser::peek_no_term`: next token, not skipping line terminators. -/
def peek_no_term (s : PState) : Token :=
  s.nthToken s.cursor

/-- `Parser::is_line_term`. -/
def is_line_term (s : PState) : Bool :=
  s.peek_no_term.is_line_term

/-- `Parser::loc`: location of the token under the cursor. -/
def loc (s : PState) : Loc :=
  (s.nthToken s.cursor).loc

/-- `Parser::prev_loc`. -/
def prev_loc (s : PState) : Loc :=
  (s.nthToken s.prevCursor).loc

/-- The loop body of `Parser::get`, walking the token list from the
cursor: line terminators advance both cursors, EOF is an error, anything
else is returned with the cursors advanced past it. -/
def getAux (s : PState) : List Token → Nat → Except PErr (Token × PState)
  | [], _ => .error (error_eof ⟨0, 0⟩)
  | t :: ts, c =>
    if t.is_eof then .error (error_eof t.loc)
    else
      let s' := { s with prevCursor := c, cursor := c + 1 }
      if t.is_line_term then getAux s' ts (c + 1) else .ok (t, s')

/-- `Parser::get`: next token, skipping line terminators; error on EOF. -/
def get (s : PState) : Except PErr (Token × PState) :=
  getAux s (s.tokens.drop s.cursor) s.cursor

/-- `Parser::get_no_skip_line_term`: the token under the cursor; advance
unless it is EOF. -/
def get_no_skip_line_term (s : PState) : Token × PState :=
  let t := s.nthToken s.cursor
  if t.is_eof then (t, s)
  else (t, { s with prevCursor := s.cursor, cursor := s.cursor + 1 })

/-- The state after `let _ = self.get();` (the result, and any error, is
discarded). -/
def afterGet (s : PState) : PState :=
  match s.get with
  | .ok (_, s') => s'
  | .error _ => s

/-- `Parser::consume_punct`. -/
def consume_punct (s : PState) (expect : Punct) : Bool × PState :=
  match s.peek.kind with
  | .Punct p => if p = expect then (true, s.afterGet) else (false, s)
  | _ => (false, s)

/-- `Parser::consume_punct_no_term`. -/
def consume_punct_no_term (s : PState) (expect : Punct) : Bool × PState :=
  if s.peek_no_term.kind = TokenKind.Punct expect then (true, s.afterGet)
  else (false, s)

/-- `Parser::consume_reserved`. -/
def consume_reserved (s : PState) (expect : Reserved) : Bool × PState :=
  match s.peek.kind with
  | .Reserved r => if r = expect then (true, s.afterGet) else (false, s)
  | _ => (false, s)

/-- `Parser::consume_reserved_no_skip_line_term`. -/
def consume_reserved_no_skip_line_term (s : PState) (expect : Reserved) :
    Bool × PState :=
  if s.peek_no_term.kind = TokenKind.Reserved expect then (true, s.afterGet)
  else (false, s)

/-- The `while` loop of `Parser::consume_term`: advance over terminators
until a non-terminator or EOF is seen. -/
def consumeTermLoop (s : PState) : List Token → Nat → PState
  | [], _ => s
  | t :: ts, c =>
    if t.is_term then
      if t.is_eof then s
      else consumeTermLoop { s with prevCursor := c, cursor := c + 1 } ts (c + 1)
    else s

/-- `Parser::consume_term`. -/
def consume_term (s : PState) : Bool × PState :=
  if !s.peek_no_term.is_term then (false, s)
  else (true, consumeTermLoop s (s.tokens.drop s.cursor) s.cursor)

/-- Modelled from the spec: the Rust `{:?}` rendering of a reserved word
(derive-`Debug` prints the variant name). -/
def reservedDebug (r : Reserved) : String :=
  match r with
  | .If => "If" | .Unless => "Unless" | .While => "While" | .Until => "Until"
  | .Do => "Do" | .For => "For" | .In => "In" | .Return => "Return"
  | .Break => "Break" | .Next => "Next" | .Case => "Case" | .When => "When"
  | .Then => "Then" | .Def => "Def" | .Class => "Class" | .Module => "Module"
  | .Begin => "Begin" | .End => "End" | .Else => "Else" | .Elsif => "Elsif"
  | .True => "True" | .False => "False" | .Nil => "Nil" | .Self_ => "Self_"
  | .And => "And" | .Or => "Or" | .Not => "Not"

/-- Modelled from the spec: the Rust `{:?}` rendering of a punctuator. -/
def punctDebug (p : Punct) : String :=
  match p with
  | .LParen => "LParen" | .RParen => "RParen" | .LBracket => "LBracket"
  | .RBracket => "RBracket" | .LBrace => "LBrace" | .RBrace => "RBrace"
  | .Comma => "Comma" | .Dot => "Dot" | .Colon => "Colon" | .Scope => "Scope"
  | .Semi => "Semi" | .Assign => "Assign" | .AssignOp _ => "AssignOp"
  | .Question => "Question" | .Arrow => "Arrow" | .FatArrow => "FatArrow"
  | .Range2 => "Range2" | .Range3 => "Range3" | .Plus => "Plus"
  | .Minus => "Minus" | .Mul => "Mul" | .Div => "Div" | .Rem => "Rem"
  | .DMul => "DMul" | .Eq => "Eq" | .Ne => "Ne" | .TEq => "TEq"
  | .Gt => "Gt" | .Ge => "Ge" | .Lt => "Lt" | .Le => "Le"
  | .LAnd => "LAnd" | .LOr => "LOr" | .BitOr => "BitOr" | .BitXor => "BitXor"
  | .BitAnd => "BitAnd" | .BitNot => "BitNot" | .Shl => "Shl" | .Shr => "Shr"
  | .Not => "Not"

/-- Modelled from the spec: the Rust `{:?}` rendering of a token kind (no
claim depends on these strings). -/
def tokenKindDebug (k : TokenKind) : String :=
  match k with
  | .Ident n _ => "Ident(" ++ n ++ ")"
  | .InstanceVar n => "InstanceVar(" ++ n ++ ")"
  | .GlobalVar n => "GlobalVar(" ++ n ++ ")"
  | .Const n => "Const(" ++ n ++ ")"
  | .NumLit _ => "NumLit"
  | .FloatLit _ => "FloatLit"
  | .StringLit _ => "StringLit"
  | .OpenDoubleQuote _ => "OpenDoubleQuote"
  | .IntermediateDoubleQuote _ => "IntermediateDoubleQuote"
  | .CloseDoubleQuote _ => "CloseDoubleQuote"
  | .Reserved r => "Reserved(" ++ reservedDebug r ++ ")"
  | .Punct p => "Punct(" ++ punctDebug p ++ ")"
  | .LineTerm => "LineTerm"
  | .EOF => "EOF"

/-- `Parser::expect_reserved`. -/
def expect_reserved (s : PState) (expect : Reserved) :
    Except PErr (Unit × PState) :=
  match s.get with
  | .error e => .error e
  | .ok (t, s') =>
    match t.kind with
    | .Reserved r =>
      if r = expect then .ok ((), s')
      else .error (error_unexpected s'.prev_loc ("Expect " ++ reservedDebug expect))
    | _ => .error (error_unexpected s'.prev_loc ("Expect " ++ reservedDebug expect))

/-- `Parser::expect_punct`. -/
def expect_punct (s : PState) (expect : Punct) :
    Except PErr (Unit × PState) :=
  match s.get with
  | .error e => .error e
  | .ok (t, s') =>
    match t.kind with
    | .Punct p =>
      if p = expect then .ok ((), s')
      else .error (error_unexpected s'.prev_loc
        ("Expect " ++ "'" ++ punctDebug expect ++ "'"))
    | _ => .error (error_unexpected s'.prev_loc
        ("Expect " ++ "'" ++ punctDebug expect ++ "'"))

/-- `Parser::get_ident_id` (interning; the identity in the name-as-id
model). -/
def get_ident_id (name : String) : IdentId := name

/-- `Parser::expect_ident`. -/
def expect_ident (s : PState) : Except PErr (IdentId × PState) :=
  match s.get with
  | .error e => .error e
  | .ok (t, s') =>
    match t.kind with
    | .Ident n _ => .ok (get_ident_id n, s')
    | _ => .error (error_unexpected s'.prev_loc "Expect identifier.")

/-- `Parser::expect_const`. -/
def expect_const (s : PState) : Except PErr (IdentId × PState) :=
  match s.get with
  | .error e => .error e
  | .ok (t, s') =>
    match t.kind with
    | .Const n => .ok (get_ident_id n, s')
    | _ => .error (error_unexpected s'.prev_loc "Expect constant.")

/-- `Parser::token_as_symbol` (the default arm is `unreachable!` in Rust:
every caller guards with `can_be_symbol`). -/
def token_as_symbol (t : Token) : String :=
  match t.kind with
  | .Ident n _ => n
  | .Const n => n
  | .InstanceVar n => n
  | .StringLit n => n
  | .Reserved r => r.toString
  | _ => ""

/-- `Parser::save_state`. -/
def save_state (s : PState) : PState :=
  { s with stateSave := (s.cursor, s.prevCursor) :: s.stateSave }

/-- `Parser::restore_state` (`pop().unwrap()`: the save stack is
non-empty whenever the Rust code calls this). -/
def restore_state (s : PState) : PState :=
  match s.stateSave with
  | [] => s
  | (c, p) :: rest => { s with cursor := c, prevCursor := p, stateSave := rest }

/-- `Parser::discard_state`. -/
def discard_state (s : PState) : PState :=
  { s with stateSave := s.stateSave.tail }

/-- `Parser::is_local_var` on the parser state. -/
def is_local_var (s : PState) (id : IdentId) : Bool :=
  Ruruby.is_local_var s.contextStack id

/-- `Parser::add_local_var_if_new` (`context_mut` targets the innermost
frame; the stack is non-empty whenever the Rust code calls this). -/
def add_local_var_if_new (s : PState) (id : IdentId) : PState :=
  if s.is_local_var id then s
  else
    match s.contextStack with
    | [] => s
    | c :: rest =>
      { s with contextStack := { c with lvar := (c.lvar.insert id).2 } :: rest }

/-- `Parser::new_param`: register a fresh parameter name or fail with
"Duplicated argument name.". -/
def new_param (s : PState) (id : IdentId) (loc : Loc) :
    Except PErr (Unit × PState) :=
  match s.contextStack with
  | [] => .error .panicked
  | c :: rest =>
    match c.lvar.insert_new id with
    | (.ok _, lv) =>
      .ok ((), { s with contextStack := { c with lvar := lv } :: rest })
    | (.error _, _) =>
      .error (error_unexpected loc "Duplicated argument name.")

/-- `Parser::new_block_param`. -/
def new_block_param (s : PState) (id : IdentId) (loc : Loc) :
    Except PErr (Unit × PState) :=
  match s.contextStack with
  | [] => .error .panicked
  | c :: rest =>
    match c.lvar.insert_block_param id with
    | (.ok _, lv) =>
      .ok ((), { s with contextStack := { c with lvar := lv } :: rest })
    | (.error _, _) =>
      .error (error_unexpected loc "Duplicated argument name.")

/-- Push a scope frame (`context_stack.push`). -/
def push_context (s : PState) (c : Context) : PState :=
  { s with contextStack := c :: s.contextStack }

/-- Pop the innermost scope frame and return its collector
(`context_stack.pop().unwrap().lvar`; the stack is non-empty whenever the
Rust code calls this). -/
def pop_context (s : PState) : LvarCollector × PState :=
  match s.contextStack with
  | [] => (LvarCollector.new, s)
  | c :: rest => (c.lvar, { s with contextStack := rest })

/-- `Parser::is_command` (`parser.rs` lines 716-743): can the next
non-skipped token start an unparenthesized argument list? -/
def is_command (s : PState) : Bool :=
  match s.peek_no_term.kind with
  | .Ident _ _ | .InstanceVar _ | .Const _ | .NumLit _ | .FloatLit _
  | .StringLit _ | .OpenDoubleQuote _ => true
  | .Punct p =>
    match p with
    | .LParen | .LBracket | .LBrace | .Colon | .Scope
    | .Plus | .Minus | .Arrow => true
    | _ => false
  | .Reserved r =>
    match r with
    | .False | .Nil | .True => true
    | _ => false
  | _ => false

end PState

/-- `Parser::check_lhs` (`parser.rs` lines 790-798): a bare suffix-free
identifier on the left of an assignment is promoted to a local of the
current scope; a suffixed identifier is rejected. -/
def check_lhs (lhs : Node) (s : PState) : Except PErr (Unit × PState) :=
  match lhs.kind with
  | .Ident id hs =>
    if hs then .error (error_unexpected lhs.loc "Illegal identifier for left hand.")
    else .ok ((), s.add_local_var_if_new id)
  | _ => .ok ((), s)

/-- `Parser::parse_then`. -/
def parse_then (s : PState) : Except PErr (Unit × PState) :=
  match s.consume_term with
  | (true, s) =>
    let (_, s) := s.consume_reserved .Then
    .ok ((), s)
  | (false, s) => s.expect_reserved .Then

/-- `Parser::parse_do`. -/
def parse_do (s : PState) : Except PErr (Unit × PState) :=
  match s.consume_term with
  | (true, s) => .ok ((), s)
  | (false, s) => s.expect_reserved .Do

/-- `Parser::parse_op_definable`. -/
def parse_op_definable (punct : Punct) (s : PState) :
    Except PErr (IdentId × PState) :=
  match punct with
  | .LBracket =>
    (match s.consume_punct_no_term .RBracket with
     | (true, s) =>
       (match s.consume_punct_no_term .Assign with
        | (true, s) => .ok (PState.get_ident_id "[]=", s)
        | (false, s) => .ok (PState.get_ident_id "[]", s))
     | (false, s) => .error (error_unexpected s.loc "Invalid symbol literal."))
  | _ => .error (error_unexpected s.prev_loc "Invalid symbol literal.")

/-- The `Kind` state machine local to `Parser::parse_params`; the derived
`PartialOrd` in Rust orders the variants in declaration order. -/
inductive ParamKind where
  | Reqired | Optional | Rest | PostReq | KeyWord | KWRest
  deriving DecidableEq, Repr

/-- Declaration-order index realising the derived `PartialOrd`. -/
def ParamKind.idx : ParamKind → Nat
  | .Reqired => 0
  | .Optional => 1
  | .Rest => 2
  | .PostReq => 3
  | .KeyWord => 4
  | .KWRest => 5

/-! ## The recursive-descent parser (`src/parser.rs` lines 448-1835)

Each Rust method becomes a function `Nat → … → PState → Except PErr (α ×
PState)`; the `Nat` is fuel, spent on every (mutually) recursive call.
Each Rust `loop` becomes an auxiliary `…_loop` function carrying the
accumulated locals of the loop. -/

mutual

/-- `Parser::parse_comp_stmt`. -/
def parse_comp_stmt : Nat → PState → Except PErr (Node × PState)
  | 0, _ => .error .outOfFuel
  | fuel + 1, s =>
    parse_comp_stmt_loop fuel [] s.loc s

/-- The statement-collecting loop of `parse_comp_stmt`. -/
def parse_comp_stmt_loop : Nat → List Node → Loc → PState →
    Except PErr (Node × PState)
  | 0, _, _, _ => .error .outOfFuel
  | fuel + 1, nodes, loc, s =>
    if s.peek.check_stmt_end then .ok (Node.new_comp_stmt nodes loc, s)
    else do
      let (node, s) ← parse_stmt fuel s
      let nodes := nodes ++ [node]
      match s.consume_term with
      | (false, s) => .ok (Node.new_comp_stmt nodes loc, s)
      | (true, s) => parse_comp_stmt_loop fuel nodes loc s

/-- `Parser::parse_stmt`. -/
def parse_stmt : Nat → PState → Except PErr (Node × PState)
  | 0, _ => .error .outOfFuel
  | fuel + 1, s => do
    let (node, s) ← parse_expr fuel s
    parse_stmt_modifiers fuel node s

/-- The modifier loop of `parse_stmt`: `STMT if/unless/while/until EXPR`. -/
def parse_stmt_modifiers : Nat → Node → PState → Except PErr (Node × PState)
  | 0, _, _ => .error .outOfFuel
  | fuel + 1, node, s =>
    match s.consume_reserved_no_skip_line_term .If with
    | (true, s) => do
      let loc := s.prev_loc
      let (cond, s) ← parse_expr fuel s
      parse_stmt_modifiers fuel
        (Node.new_if cond node (Node.new_comp_stmt [] loc) loc) s
    | (false, _) =>
    match s.consume_reserved_no_skip_line_term .Unless with
    | (true, s) => do
      let loc := s.prev_loc
      let (cond, s) ← parse_expr fuel s
      parse_stmt_modifiers fuel
        (Node.new_if cond (Node.new_comp_stmt [] loc) node loc) s
    | (false, _) =>
    match s.consume_reserved_no_skip_line_term .While with
    | (true, s) => do
      let loc := s.prev_loc
      let (cond, s) ← parse_expr fuel s
      let loc := loc.merge s.prev_loc
      parse_stmt_modifiers fuel (Node.new_while cond node loc) s
    | (false, _) =>
    match s.consume_reserved_no_skip_line_term .Until with
    | (true, s) => do
      let loc := s.prev_loc
      let (cond0, s) ← parse_expr fuel s
      let cond := Node.new_unop .Not cond0 loc
      let loc := loc.merge s.prev_loc
      parse_stmt_modifiers fuel (Node.new_while cond node loc) s
    | (false, s) => .ok (node, s)

/-- `Parser::parse_expr`. -/
def parse_expr : Nat → PState → Except PErr (Node × PState)
  | 0, _ => .error .outOfFuel
  | fuel + 1, s => do
    let (node, s) ← parse_arg fuel s
    match s.consume_punct_no_term .Comma with
    | (true, s) => parse_mul_assign fuel node s
    | (false, s) =>
      if node.is_operation && s.is_command then
        match node.as_method_name with
        | some m => parse_command fuel m node.loc s
        | none => .error .panicked
      else
        match node.kind with
        | .Send receiver method args0 _ _ false => do
          let loc0 := node.loc
          let (args1, kw1, loc1, s) ←
            if s.is_command then do
              let ((a, k), s) ← parse_arglist fuel s
              let loc' :=
                match a with
                | arg0 :: _ => loc0.merge arg0.loc
                | [] => loc0
              pure (a, k, loc', s)
            else
              pure (args0, ([] : List (IdentId × Node)), loc0, s)
          let (block, s) ← parse_block fuel s
          .ok (Node.new_send receiver method args1 kw1 block true loc1, s)
        | _ => .ok (node, s)

/-- `Parser::parse_mul_assign` (entry: the first LHS is already parsed). -/
def parse_mul_assign : Nat → Node → PState → Except PErr (Node × PState)
  | 0, _, _ => .error .outOfFuel
  | fuel + 1, node, s => do
    let ids ←
      match node.kind with
      | .Ident id hs =>
        if hs then
          Except.error (error_unexpected node.loc "Illegal identifier for left hand.")
        else pure [id]
      | _ => pure []
    parse_mul_assign_loop fuel [node] ids s

/-- The LHS-collecting loop of `parse_mul_assign`. -/
def parse_mul_assign_loop : Nat → List Node → List IdentId → PState →
    Except PErr (Node × PState)
  | 0, _, _, _ => .error .outOfFuel
  | fuel + 1, mlhs, ids, s =>
    if s.peek_no_term.kind = TokenKind.Punct .Assign then
      parse_mul_assign_fin fuel mlhs ids s
    else do
      let (node, s) ← parse_function fuel s
      let ids ←
        match node.kind with
        | .Ident id hs =>
          if hs then
            Except.error (error_unexpected node.loc "Illegal identifier for left hand.")
          else pure (ids ++ [id])
        | _ => pure ids
      let mlhs := mlhs ++ [node]
      match s.consume_punct_no_term .Comma with
      | (true, s) => parse_mul_assign_loop fuel mlhs ids s
      | (false, s) => parse_mul_assign_fin fuel mlhs ids s

/-- The tail of `parse_mul_assign`: `=`, the RHS list, and promotion of
each collected identifier to a local. -/
def parse_mul_assign_fin : Nat → List Node → List IdentId → PState →
    Except PErr (Node × PState)
  | 0, _, _, _ => .error .outOfFuel
  | fuel + 1, mlhs, ids, s =>
    match s.consume_punct_no_term .Assign with
    | (false, s) => .error (error_unexpected s.loc "Expected '='.")
    | (true, s) => do
      let ((mrhs, _), s) ← parse_args fuel none s
      let s := ids.foldl (fun st i => st.add_local_var_if_new i) s
      .ok (Node.new_mul_assign mlhs mrhs, s)

/-- `Parser::parse_command`. -/
def parse_command : Nat → IdentId → Loc → PState →
    Except PErr (Node × PState)
  | 0, _, _, _ => .error .outOfFuel
  | fuel + 1, operation, loc, s => do
    let ((args, kw), s) ← parse_arglist fuel s
    let (block, s) ← parse_block fuel s
    .ok (Node.new_send (Node.new_self loc) operation args kw block true loc, s)

/-- `Parser::parse_arglist`. -/
def parse_arglist : Nat → PState →
    Except PErr ((List Node × List (IdentId × Node)) × PState)
  | 0, _ => .error .outOfFuel
  | fuel + 1, s => do
    let (first, s) ← parse_arg fuel s
    if first.is_operation && s.is_command then
      match first.as_method_name with
      | some m => do
        let (n, s) ← parse_command fuel m first.loc s
        .ok (([n], []), s)
      | none => .error .panicked
    else
      match s.consume_punct .Comma with
      | (true, s) => do
        let ((a2, kw), s) ← parse_args fuel none s
        .ok ((first :: a2, kw), s)
      | (false, s) => .ok (([first], []), s)

/-- `Parser::parse_arg`. -/
def parse_arg : Nat → PState → Except PErr (Node × PState)
  | 0, _ => .error .outOfFuel
  | fuel + 1, s => parse_arg_assign fuel s

/-- `Parser::parse_arg_assign`. -/
def parse_arg_assign : Nat → PState → Except PErr (Node × PState)
  | 0, _ => .error .outOfFuel
  | fuel + 1, s => do
    let (lhs, s) ← parse_arg_ternary fuel s
    if s.is_line_term then .ok (lhs, s)
    else
      match s.consume_punct_no_term .Assign with
      | (true, s) => do
        let ((mrhs, _), s) ← parse_args fuel none s
        let (_, s) ← check_lhs lhs s
        .ok (Node.new_mul_assign [lhs] mrhs, s)
      | (false, s) =>
        match s.peek_no_term.kind with
        | .Punct (.AssignOp op) =>
          (match op with
           | .LOr => do
             let (_, s) ← s.get
             let (rhs, s) ← parse_arg fuel s
             let (_, s) ← check_lhs lhs s
             let lhs :=
               match lhs.kind with
               | .Ident id _ => Node.new_lvar id lhs.loc
               | _ => lhs
             .ok (Node.new_binop .LOr lhs
               (Node.new_mul_assign [lhs] [rhs]), s)
           | _ => do
             let (_, s) ← s.get
             let (rhs, s) ← parse_arg fuel s
             let (_, s) ← check_lhs lhs s
             .ok (Node.new_mul_assign [lhs] [Node.new_binop op lhs rhs], s))
        | _ => .ok (lhs, s)

/-- `Parser::parse_arg_ternary`. -/
def parse_arg_ternary : Nat → PState → Except PErr (Node × PState)
  | 0, _ => .error .outOfFuel
  | fuel + 1, s => do
    let (cond, s) ← parse_arg_range fuel s
    let loc := cond.loc
    match s.consume_punct_no_term .Question with
    | (true, s) => do
      let (then_, s) ← parse_arg fuel s
      match s.consume_punct_no_term .Colon with
      | (false, s) => .error (error_unexpected s.loc "Expect ':'.")
      | (true, s) => do
        let (else_, s) ← parse_arg fuel s
        .ok (Node.new_if cond then_ else_ loc, s)
    | (false, s) => .ok (cond, s)

/-- `Parser::parse_arg_range`. -/
def parse_arg_range : Nat → PState → Except PErr (Node × PState)
  | 0, _ => .error .outOfFuel
  | fuel + 1, s => do
    let (lhs, s) ← parse_arg_logical_or fuel s
    if s.is_line_term then .ok (lhs, s)
    else
      match s.consume_punct .Range2 with
      | (true, s) => do
        let (rhs, s) ← parse_arg_logical_or fuel s
        .ok (Node.new_range lhs rhs false (lhs.loc.merge rhs.loc), s)
      | (false, s) =>
        match s.consume_punct .Range3 with
        | (true, s) => do
          let (rhs, s) ← parse_arg_logical_or fuel s
          .ok (Node.new_range lhs rhs true (lhs.loc.merge rhs.loc), s)
        | (false, s) => .ok (lhs, s)

/-- `Parser::parse_arg_logical_or`. -/
def parse_arg_logical_or : Nat → PState → Except PErr (Node × PState)
  | 0, _ => .error .outOfFuel
  | fuel + 1, s => do
    let (lhs, s) ← parse_arg_logical_and fuel s
    parse_arg_logical_or_loop fuel lhs s

/-- The `||` loop of `parse_arg_logical_or`. -/
def parse_arg_logical_or_loop : Nat → Node → PState →
    Except PErr (Node × PState)
  | 0, _, _ => .error .outOfFuel
  | fuel + 1, lhs, s =>
    match s.consume_punct_no_term .LOr with
    | (true, s) => do
      let (rhs, s) ← parse_arg_logical_and fuel s
      parse_arg_logical_or_loop fuel (Node.new_binop .LOr lhs rhs) s
    | (false, s) => .ok (lhs, s)

/-- `Parser::parse_arg_logical_and`. -/
def parse_arg_logical_and : Nat → PState → Except PErr (Node × PState)
  | 0, _ => .error .outOfFuel
  | fuel + 1, s => do
    let (lhs, s) ← parse_arg_eq fuel s
    parse_arg_logical_and_loop fuel lhs s

/-- The `&&` loop of `parse_arg_logical_and`. -/
def parse_arg_logical_and_loop : Nat → Node → PState →
    Except PErr (Node × PState)
  | 0, _, _ => .error .outOfFuel
  | fuel + 1, lhs, s =>
    match s.consume_punct_no_term .LAnd with
    | (true, s) => do
      let (rhs, s) ← parse_arg_eq fuel s
      parse_arg_logical_and_loop fuel (Node.new_binop .LAnd lhs rhs) s
    | (false, s) => .ok (lhs, s)

/-- `Parser::parse_arg_eq` (non-associative: `4==4==4` is a syntax
error downstream). -/
def parse_arg_eq : Nat → PState → Except PErr (Node × PState)
  | 0, _ => .error .outOfFuel
  | fuel + 1, s => do
    let (lhs, s) ← parse_arg_comp fuel s
    match s.consume_punct_no_term .Eq with
    | (true, s) => do
      let (rhs, s) ← parse_arg_comp fuel s
      .ok (Node.new_binop .Eq lhs rhs, s)
    | (false, s) =>
      match s.consume_punct_no_term .Ne with
      | (true, s) => do
        let (rhs, s) ← parse_arg_comp fuel s
        .ok (Node.new_binop .Ne lhs rhs, s)
      | (false, s) =>
        match s.consume_punct_no_term .TEq with
        | (true, s) => do
          let (rhs, s) ← parse_arg_comp fuel s
          .ok (Node.new_binop .TEq lhs rhs, s)
        | (false, s) => .ok (lhs, s)

/-- `Parser::parse_arg_comp`. -/
def parse_arg_comp : Nat → PState → Except PErr (Node × PState)
  | 0, _ => .error .outOfFuel
  | fuel + 1, s => do
    let (lhs, s) ← parse_arg_bitor fuel s
    if s.is_line_term then .ok (lhs, s)
    else parse_arg_comp_loop fuel lhs s

/-- The comparison loop of `parse_arg_comp` (`>=`, `>`, `<=`, `<`). -/
def parse_arg_comp_loop : Nat → Node → PState → Except PErr (Node × PState)
  | 0, _, _ => .error .outOfFuel
  | fuel + 1, lhs, s =>
    match s.consume_punct_no_term .Ge with
    | (true, s) => do
      let (rhs, s) ← parse_arg_bitor fuel s
      parse_arg_comp_loop fuel (Node.new_binop .Ge lhs rhs) s
    | (false, s) =>
      match s.consume_punct_no_term .Gt with
      | (true, s) => do
        let (rhs, s) ← parse_arg_bitor fuel s
        parse_arg_comp_loop fuel (Node.new_binop .Gt lhs rhs) s
      | (false, s) =>
        match s.consume_punct_no_term .Le with
        | (true, s) => do
          let (rhs, s) ← parse_arg_bitor fuel s
          parse_arg_comp_loop fuel (Node.new_binop .Le lhs rhs) s
        | (false, s) =>
          match s.consume_punct_no_term .Lt with
          | (true, s) => do
            let (rhs, s) ← parse_arg_bitor fuel s
            parse_arg_comp_loop fuel (Node.new_binop .Lt lhs rhs) s
          | (false, s) => .ok (lhs, s)

/-- `Parser::parse_arg_bitor`. -/
def parse_arg_bitor : Nat → PState → Except PErr (Node × PState)
  | 0, _ => .error .outOfFuel
  | fuel + 1, s => do
    let (lhs, s) ← parse_arg_bitand fuel s
    parse_arg_bitor_loop fuel lhs s

/-- The `|`/`^` loop of `parse_arg_bitor`. -/
def parse_arg_bitor_loop : Nat → Node → PState → Except PErr (Node × PState)
  | 0, _, _ => .error .outOfFuel
  | fuel + 1, lhs, s =>
    match s.consume_punct_no_term .BitOr with
    | (true, s) => do
      let (rhs, s) ← parse_arg_bitand fuel s
      parse_arg_bitor_loop fuel (Node.new_binop .BitOr lhs rhs) s
    | (false, s) =>
      match s.consume_punct_no_term .BitXor with
      | (true, s) => do
        let (rhs, s) ← parse_arg_bitand fuel s
        parse_arg_bitor_loop fuel (Node.new_binop .BitXor lhs rhs) s
      | (false, s) => .ok (lhs, s)

/-- `Parser::parse_arg_bitand`. -/
def parse_arg_bitand : Nat → PState → Except PErr (Node × PState)
  | 0, _ => .error .outOfFuel
  | fuel + 1, s => do
    let (lhs, s) ← parse_arg_shift fuel s
    parse_arg_bitand_loop fuel lhs s

/-- The `&` loop of `parse_arg_bitand`. -/
def parse_arg_bitand_loop : Nat → Node → PState → Except PErr (Node × PState)
  | 0, _, _ => .error .outOfFuel
  | fuel + 1, lhs, s =>
    match s.consume_punct_no_term .BitAnd with
    | (true, s) => do
      let (rhs, s) ← parse_arg_shift fuel s
      parse_arg_bitand_loop fuel (Node.new_binop .BitAnd lhs rhs) s
    | (false, s) => .ok (lhs, s)

/-- `Parser::parse_arg_shift`. -/
def parse_arg_shift : Nat → PState → Except PErr (Node × PState)
  | 0, _ => .error .outOfFuel
  | fuel + 1, s => do
    let (lhs, s) ← parse_arg_add fuel s
    parse_arg_shift_loop fuel lhs s

/-- The `<<`/`>>` loop of `parse_arg_shift`. -/
def parse_arg_shift_loop : Nat → Node → PState → Except PErr (Node × PState)
  | 0, _, _ => .error .outOfFuel
  | fuel + 1, lhs, s =>
    match s.consume_punct_no_term .Shl with
    | (true, s) => do
      let (rhs, s) ← parse_arg_add fuel s
      parse_arg_shift_loop fuel (Node.new_binop .Shl lhs rhs) s
    | (false, s) =>
      match s.consume_punct_no_term .Shr with
      | (true, s) => do
        let (rhs, s) ← parse_arg_add fuel s
        parse_arg_shift_loop fuel (Node.new_binop .Shr lhs rhs) s
      | (false, s) => .ok (lhs, s)

/-- `Parser::parse_arg_add`. -/
def parse_arg_add : Nat → PState → Except PErr (Node × PState)
  | 0, _ => .error .outOfFuel
  | fuel + 1, s => do
    let (lhs, s) ← parse_arg_mul fuel s
    parse_arg_add_loop fuel lhs s

/-- The `+`/`-` loop of `parse_arg_add`. -/
def parse_arg_add_loop : Nat → Node → PState → Except PErr (Node × PState)
  | 0, _, _ => .error .outOfFuel
  | fuel + 1, lhs, s =>
    match s.consume_punct_no_term .Plus with
    | (true, s) => do
      let (rhs, s) ← parse_arg_mul fuel s
      parse_arg_add_loop fuel (Node.new_binop .Add lhs rhs) s
    | (false, s) =>
      match s.consume_punct_no_term .Minus with
      | (true, s) => do
        let (rhs, s) ← parse_arg_mul fuel s
        parse_arg_add_loop fuel (Node.new_binop .Sub lhs rhs) s
      | (false, s) => .ok (lhs, s)

/-- `Parser::parse_arg_mul`. -/
def parse_arg_mul : Nat → PState → Except PErr (Node × PState)
  | 0, _ => .error .outOfFuel
  | fuel + 1, s => do
    let (lhs, s) ← parse_unary_minus fuel s
    if s.is_line_term then .ok (lhs, s)
    else parse_arg_mul_loop fuel lhs s

/-- The `*`/`/`/`%` loop of `parse_arg_mul`. -/
def parse_arg_mul_loop : Nat → Node → PState → Except PErr (Node × PState)
  | 0, _, _ => .error .outOfFuel
  | fuel + 1, lhs, s =>
    match s.consume_punct_no_term .Mul with
    | (true, s) => do
      let (rhs, s) ← parse_unary_minus fuel s
      parse_arg_mul_loop fuel (Node.new_binop .Mul lhs rhs) s
    | (false, s) =>
      match s.consume_punct_no_term .Div with
      | (true, s) => do
        let (rhs, s) ← parse_unary_minus fuel s
        parse_arg_mul_loop fuel (Node.new_binop .Div lhs rhs) s
      | (false, s) =>
        match s.consume_punct_no_term .Rem with
        | (true, s) => do
          let (rhs, s) ← parse_unary_minus fuel s
          parse_arg_mul_loop fuel (Node.new_binop .Rem lhs rhs) s
        | (false, s) => .ok (lhs, s)

/-- `Parser::parse_unary_minus`: backtracks so that `-NUM` with the `-`
attached is a negative literal rather than a unary minus. -/
def parse_unary_minus : Nat → PState → Except PErr (Node × PState)
  | 0, _ => .error .outOfFuel
  | fuel + 1, s =>
    let s := s.save_state
    match s.consume_punct .Minus with
    | (true, s) =>
      let loc := s.prev_loc
      (match s.peek.kind with
       | .NumLit _ | .FloatLit _ =>
         let s := s.restore_state
         parse_exponent fuel s
       | _ => do
         let s := s.discard_state
         let (lhs, s) ← parse_unary_minus fuel s
         let loc := loc.merge lhs.loc
         .ok (Node.new_binop .Mul lhs (Node.new_integer (-1) loc), s))
    | (false, s) =>
      let s := s.discard_state
      parse_exponent fuel s

/-- `Parser::parse_exponent` (`**`, right-associative). -/
def parse_exponent : Nat → PState → Except PErr (Node × PState)
  | 0, _ => .error .outOfFuel
  | fuel + 1, s => do
    let (lhs, s) ← parse_unary fuel s
    match s.consume_punct_no_term .DMul with
    | (true, s) => do
      let (rhs, s) ← parse_exponent fuel s
      .ok (Node.new_binop .Exp lhs rhs, s)
    | (false, s) => .ok (lhs, s)

/-- `Parser::parse_unary` (`~`, `!`). -/
def parse_unary : Nat → PState → Except PErr (Node × PState)
  | 0, _ => .error .outOfFuel
  | fuel + 1, s =>
    match s.consume_punct .BitNot with
    | (true, s) => do
      let loc := s.prev_loc
      let (lhs, s) ← parse_unary fuel s
      .ok (Node.new_unop .BitNot lhs loc, s)
    | (false, s) =>
      match s.consume_punct .Not with
      | (true, s) => do
        let loc := s.prev_loc
        let (lhs, s) ← parse_unary fuel s
        .ok (Node.new_unop .Not lhs loc, s)
      | (false, s) => parse_function fuel s

/-- `Parser::parse_function`: a primary, an optional immediate call
(`FNAME(…)` / `FNAME BLOCK` when the primary is an operation), then the
postfix chain. -/
def parse_function : Nat → PState → Except PErr (Node × PState)
  | 0, _ => .error .outOfFuel
  | fuel + 1, s => do
    let (node, s) ← parse_primary fuel s
    let loc := node.loc
    let (node, s) ←
      if node.is_operation then
        match s.consume_punct_no_term .LParen with
        | (true, s) => do
          let ((args, kw), s) ← parse_args fuel (some .RParen) s
          let (block, s) ← parse_block fuel s
          match node.as_method_name with
          | some m =>
            pure (Node.new_send (Node.new_self loc) m args kw block true loc, s)
          | none => Except.error .panicked
        | (false, s) => do
          let (blk, s) ← parse_block fuel s
          match blk with
          | some b =>
            (match node.as_method_name with
             | some m =>
               pure (Node.new_send (Node.new_self loc) m [] [] (some b) true loc, s)
             | none => Except.error PErr.panicked)
          | none => pure (node, s)
      else pure (node, s)
    parse_function_chain fuel node loc s

/-- The postfix-chain loop of `parse_function` (`.m`, `[…]`, `::C`). -/
def parse_function_chain : Nat → Node → Loc → PState →
    Except PErr (Node × PState)
  | 0, _, _, _ => .error .outOfFuel
  | fuel + 1, node, loc, s =>
    match s.peek.kind with
    | .Punct .Dot => do
      let (_, s) ← s.get
      let (tok2, s) ← s.get
      let (method, s) ←
        match tok2.kind with
        | .Ident n hs =>
          if hs then do
            let (t3, s) ← s.get
            match t3.kind with
            | .Punct .Question => pure (n ++ "?", s)
            | .Punct .Not => pure (n ++ "!", s)
            | _ => Except.error (error_unexpected tok2.loc "Illegal method name.")
          else pure (n, s)
        | .Reserved r => pure (Reserved.toString r, s)
        | _ =>
          Except.error (error_unexpected tok2.loc "method name must be an identifier.")
      let id := PState.get_ident_id method
      let (args, kw, completed, s) ←
        match s.consume_punct_no_term .LParen with
        | (true, s) => do
          let ((a, k), s) ← parse_args fuel (some .RParen) s
          pure (a, k, true, s)
        | (false, s) =>
          pure (([] : List Node), ([] : List (IdentId × Node)), false, s)
      let (block, s) ← parse_block fuel s
      let completed := if block.isSome then true else completed
      let node :=
        match node.kind with
        | .Ident id0 _ =>
          Node.new_send (Node.new_self loc) id0 [] [] none true loc
        | _ => node
      parse_function_chain fuel
        (Node.new_send node id args kw block completed (loc.merge s.loc)) loc s
    | .Punct .LBracket =>
      if node.is_operation then .ok (node, s)
      else do
        let (_, s) ← s.get
        let ((args, _), s) ← parse_args fuel (some .RBracket) s
        parse_function_chain fuel (Node.new_array_member node args.reverse) loc s
    | .Punct .Scope => do
      let (_, s) ← s.get
      let loc2 := s.loc
      let (id, s) ← s.expect_const
      parse_function_chain fuel (Node.new_scope node id loc2) loc s
    | _ => .ok (node, s)

/-- `Parser::parse_args` (argument list; `punct = none` for an
unparenthesized list). -/
def parse_args : Nat → Option Punct → PState →
    Except PErr ((List Node × List (IdentId × Node)) × PState)
  | 0, _, _ => .error .outOfFuel
  | fuel + 1, punct, s => parse_args_loop fuel punct [] [] s

/-- The element loop of `parse_args`. -/
def parse_args_loop : Nat → Option Punct → List Node →
    List (IdentId × Node) → PState →
    Except PErr ((List Node × List (IdentId × Node)) × PState)
  | 0, _, _, _, _ => .error .outOfFuel
  | fuel + 1, punct, args, kw, s =>
    let (closed, s) :=
      match punct with
      | some p => s.consume_punct p
      | none => (false, s)
    if closed then .ok ((args, kw), s)
    else do
      let (args, kw, s) ←
        match s.consume_punct .Mul with
        | (true, s) => do
          let loc := s.prev_loc
          let (array, s) ← parse_arg fuel s
          pure (args ++ [Node.new_splat array loc], kw, s)
        | (false, s) => do
          let (node, s) ← parse_arg fuel s
          match node.kind with
          | .Ident id _ | .LocalVar id =>
            (match s.consume_punct_no_term .Colon with
             | (true, s) => do
               let (v, s) ← parse_arg fuel s
               pure (args, kw ++ [(id, v)], s)
             | (false, s) => pure (args ++ [node], kw, s))
          | _ => pure (args ++ [node], kw, s)
      match s.consume_punct .Comma with
      | (true, s) => parse_args_loop fuel punct args kw s
      | (false, s) =>
        match punct with
        | some p => do
          let (_, s) ← s.expect_punct p
          .ok ((args, kw), s)
        | none => .ok ((args, kw), s)

/-- `Parser::parse_block`: `do … end` or `{ … }`, or `none`. -/
def parse_block : Nat → PState → Except PErr (Option Node × PState)
  | 0, _ => .error .outOfFuel
  | fuel + 1, s =>
    match s.consume_reserved_no_skip_line_term .Do with
    | (true, s) => parse_block_body fuel true s
    | (false, s) =>
      match s.consume_punct_no_term .LBrace with
      | (true, s) => parse_block_body fuel false s
      | (false, s) => .ok (none, s)

/-- The body of `parse_block` after the opener. -/
def parse_block_body : Nat → Bool → PState →
    Except PErr (Option Node × PState)
  | 0, _, _ => .error .outOfFuel
  | fuel + 1, doFlag, s => do
    let loc := s.prev_loc
    let s := s.push_context Context.new_block
    let (params, s) ←
      match s.consume_punct .BitOr with
      | (true, s) =>
        (match s.consume_punct .BitOr with
         | (true, s) => pure (([] : List Node), s)
         | (false, s) => parse_block_params_loop fuel [] s)
      | (false, s) =>
        let (_, s) := s.consume_punct .LOr
        pure (([] : List Node), s)
    let (body, s) ← parse_comp_stmt fuel s
    let (_, s) ←
      if doFlag then s.expect_reserved .End else s.expect_punct .RBrace
    let (lvar, s) := s.pop_context
    let loc := loc.merge s.prev_loc
    .ok (some (Node.new_proc params body lvar loc), s)

/-- The parameter loop of `parse_block` (between `|`…`|`). -/
def parse_block_params_loop : Nat → List Node → PState →
    Except PErr (List Node × PState)
  | 0, _, _ => .error .outOfFuel
  | fuel + 1, params, s => do
    let (id, s) ← s.expect_ident
    let params := params ++ [Node.new_param id s.prev_loc]
    let (_, s) ← s.new_param id s.prev_loc
    match s.consume_punct .Comma with
    | (true, s) => parse_block_params_loop fuel params s
    | (false, s) => do
      let (_, s) ← s.expect_punct .BitOr
      pure (params, s)

/-- `Parser::parse_primary`. -/
def parse_primary : Nat → PState → Except PErr (Node × PState)
  | 0, _ => .error .outOfFuel
  | fuel + 1, s => do
    let (tok, s) ← s.get
    let loc := tok.loc
    match tok.kind with
    | .Ident name hasSuffix =>
      let id := PState.get_ident_id name
      if hasSuffix then
        match s.consume_punct .Question with
        | (true, s) =>
          .ok (Node.new_identifier (PState.get_ident_id (name ++ "?")) true
            (loc.merge s.prev_loc), s)
        | (false, s) =>
          match s.consume_punct .Not with
          | (true, s) =>
            .ok (Node.new_identifier (PState.get_ident_id (name ++ "!")) true
              (loc.merge s.prev_loc), s)
          | (false, s) => .ok (Node.new_identifier id true loc, s)
      else if s.is_local_var id then .ok (Node.new_lvar id loc, s)
      else .ok (Node.new_identifier id false loc, s)
    | .InstanceVar name =>
      .ok (Node.new_instance_var (PState.get_ident_id name) loc, s)
    | .GlobalVar name =>
      .ok (Node.new_global_var (PState.get_ident_id name) loc, s)
    | .Const name =>
      .ok (Node.new_const (PState.get_ident_id name) false loc, s)
    | .NumLit num => .ok (Node.new_integer num loc, s)
    | .FloatLit num => .ok (Node.new_float num loc, s)
    | .StringLit str => parse_string_lit_loop fuel str s.prev_loc s
    | .OpenDoubleQuote str => parse_interporated_string_literal fuel str s
    | .Punct punct =>
      (match punct with
       | .Minus => do
         let (t2, s) ← s.get
         (match t2.kind with
          | .NumLit num => .ok (Node.new_integer (-num) loc, s)
          | .FloatLit num => .ok (Node.new_float (-num) loc, s)
          | _ => .error .panicked)
       | .LParen => do
         let (node, s) ← parse_comp_stmt fuel s
         let (_, s) ← s.expect_punct .RParen
         .ok (node, s)
       | .LBracket => do
         let ((nodes, _), s) ← parse_args fuel (some .RBracket) s
         let loc := loc.merge s.prev_loc
         .ok (Node.new_array nodes.reverse loc, s)
       | .LBrace => parse_hash_literal fuel s.prev_loc s
       | .Colon => do
         let symbolLoc := s.loc
         let (token, s) ← s.get
         (match token.kind with
          | .Punct p2 => do
            let (id, s) ← parse_op_definable p2 s
            .ok (Node.new_symbol id (loc.merge s.prev_loc), s)
          | .OpenDoubleQuote str => do
            let (node, s) ← parse_interporated_string_literal fuel str s
            let method := PState.get_ident_id "to_sym"
            let loc2 := symbolLoc.merge node.loc
            .ok (Node.new_send node method [] [] none true loc2, s)
          | _ =>
            if token.can_be_symbol then
              let ident := PState.token_as_symbol token
              let id := PState.get_ident_id ident
              .ok (Node.new_symbol id (loc.merge s.prev_loc), s)
            else .error (error_unexpected symbolLoc "Expect identifier or string."))
       | .Arrow => do
         let s := s.push_context Context.new_block
         let (params, s) ←
           match s.consume_punct .LParen with
           | (true, s) =>
             (match s.consume_punct .RParen with
              | (true, s) => pure (([] : List Node), s)
              | (false, s) => parse_lambda_params_loop fuel [] s)
           | (false, s) =>
             match s.peek.kind with
             | .Ident _ _ => do
               let (id, s) ← s.expect_ident
               let (_, s) ← s.new_param id s.prev_loc
               pure ([Node.new_param id s.prev_loc], s)
             | _ => pure (([] : List Node), s)
         let (_, s) ← s.expect_punct .LBrace
         let (body, s) ← parse_comp_stmt fuel s
         let (_, s) ← s.expect_punct .RBrace
         let (lvar, s) := s.pop_context
         .ok (Node.new_proc params body lvar loc, s)
       | .Scope => do
         let (id, s) ← s.expect_const
         .ok (Node.new_const id true loc, s)
       | _ =>
         .error (error_unexpected loc
           ("Unexpected token: " ++ PState.tokenKindDebug tok.kind)))
    | .Reserved r =>
      (match r with
       | .If => do
         let (node, s) ← parse_if_then fuel s
         let (_, s) ← s.expect_reserved .End
         .ok (node, s)
       | .Unless => do
         let (node, s) ← parse_unless fuel s
         let (_, s) ← s.expect_reserved .End
         .ok (node, s)
       | .For => do
         let loc := s.prev_loc
         let (varId, s) ← s.expect_ident
         let var := Node.new_lvar varId s.prev_loc
         let s := s.add_local_var_if_new varId
         let (_, s) ← s.expect_reserved .In
         let (iter, s) ← parse_expr fuel s
         let (_, s) ← parse_do s
         let (body, s) ← parse_comp_stmt fuel s
         let (_, s) ← s.expect_reserved .End
         .ok (Node.new (NodeKind.For var iter body) (loc.merge s.prev_loc), s)
       | .While => do
         let loc := s.prev_loc
         let (cond, s) ← parse_expr fuel s
         let (_, s) ← parse_do s
         let (body, s) ← parse_comp_stmt fuel s
         let (_, s) ← s.expect_reserved .End
         .ok (Node.new_while cond body (loc.merge s.prev_loc), s)
       | .Until => do
         let loc := s.prev_loc
         let (cond0, s) ← parse_expr fuel s
         let cond := Node.new_unop .Not cond0 loc
         let (_, s) ← parse_do s
         let (body, s) ← parse_comp_stmt fuel s
         let (_, s) ← s.expect_reserved .End
         .ok (Node.new_while cond body (loc.merge s.prev_loc), s)
       | .Case => do
         let loc := s.prev_loc
         let (cond, s) ← parse_expr fuel s
         let (_, s) := s.consume_term
         let (whens, s) ← parse_case_when_loop fuel [] s
         let (else_, s) ←
           match s.consume_reserved .Else with
           | (true, s) => parse_comp_stmt fuel s
           | (false, s) => pure (Node.new_comp_stmt [] s.loc, s)
         let (_, s) ← s.expect_reserved .End
         .ok (Node.new_case cond whens else_ loc, s)
       | .Def => parse_def fuel s
       | .Class =>
         (match s.contextStack.head? with
          | some c =>
            if c.kind = ContextKind.Method then
              .error (error_unexpected loc
                "SyntaxError: class definition in method body.")
            else parse_class fuel false s
          | none => .error .panicked)
       | .Module =>
         (match s.contextStack.head? with
          | some c =>
            if c.kind = ContextKind.Method then
              .error (error_unexpected loc
                "SyntaxError: class definition in method body.")
            else parse_class fuel true s
          | none => .error .panicked)
       | .Return =>
         let tok2 := s.peek_no_term
         if tok2.is_term || tok2.kind = TokenKind.Reserved .Unless ||
             tok2.kind = TokenKind.Reserved .If || tok2.check_stmt_end then
           .ok (Node.new_return (Node.new_comp_stmt [] loc) loc, s)
         else do
           let (val, s) ← parse_arg fuel s
           let retLoc := val.loc
           match s.consume_punct_no_term .Comma with
           | (true, s) => do
             let (v2, s) ← parse_arg fuel s
             let (vec, s) ← parse_return_list_loop fuel [val, v2] s
             .ok (Node.new_return (Node.new_array vec.reverse retLoc) loc, s)
           | (false, s) => .ok (Node.new_return val loc, s)
       | .Break => .ok (Node.new_break loc, s)
       | .Next => .ok (Node.new_next loc, s)
       | .True => .ok (Node.new_bool true loc, s)
       | .False => .ok (Node.new_bool false loc, s)
       | .Nil => .ok (Node.new_nil loc, s)
       | .Self_ => .ok (Node.new_self loc, s)
       | .Begin => do
         let (node, s) ← parse_comp_stmt fuel s
         let (_, s) ← s.expect_reserved .End
         .ok (node, s)
       | _ =>
         .error (error_unexpected loc
           ("Unexpected token: " ++ PState.tokenKindDebug tok.kind)))
    | .EOF => .error (error_eof loc)
    | _ =>
      .error (error_unexpected loc
        ("Unexpected token: " ++ PState.tokenKindDebug tok.kind))

/-- The parameter loop of a `->(…)` lambda literal in `parse_primary`. -/
def parse_lambda_params_loop : Nat → List Node → PState →
    Except PErr (List Node × PState)
  | 0, _, _ => .error .outOfFuel
  | fuel + 1, params, s => do
    let (id, s) ← s.expect_ident
    let params := params ++ [Node.new_param id s.prev_loc]
    let (_, s) ← s.new_param id s.prev_loc
    match s.consume_punct .Comma with
    | (true, s) => parse_lambda_params_loop fuel params s
    | (false, s) => do
      let (_, s) ← s.expect_punct .RParen
      pure (params, s)

/-- The `when`-collecting loop of the `case` branch of `parse_primary`. -/
def parse_case_when_loop : Nat → List (List Node × Node) → PState →
    Except PErr (List (List Node × Node) × PState)
  | 0, _, _ => .error .outOfFuel
  | fuel + 1, acc, s =>
    match s.consume_reserved .When with
    | (true, s) => do
      let ((arg, _), s) ← parse_args fuel none s
      let (_, s) ← parse_then s
      let (body, s) ← parse_comp_stmt fuel s
      parse_case_when_loop fuel (acc ++ [(arg, body)]) s
    | (false, s) => .ok (acc, s)

/-- The extra-values loop of the `return v1, v2, …` branch of
`parse_primary`. -/
def parse_return_list_loop : Nat → List Node → PState →
    Except PErr (List Node × PState)
  | 0, _, _ => .error .outOfFuel
  | fuel + 1, acc, s =>
    match s.consume_punct_no_term .Comma with
    | (true, s) => do
      let (v, s) ← parse_arg fuel s
      parse_return_list_loop fuel (acc ++ [v]) s
    | (false, s) => .ok (acc, s)

/-- `Parser::parse_string_literal`: concatenate adjacent string-literal
tokens (entered with the first payload and its location). -/
def parse_string_lit_loop : Nat → String → Loc → PState →
    Except PErr (Node × PState)
  | 0, _, _, _ => .error .outOfFuel
  | fuel + 1, str, loc, s =>
    match s.peek_no_term.kind with
    | .StringLit next => do
      let (_, s) ← s.get
      parse_string_lit_loop fuel (str ++ next) loc s
    | _ => .ok (Node.new_string str loc, s)

/-- `Parser::parse_interporated_string_literal` (entered with the opening
chunk's payload). -/
def parse_interporated_string_literal : Nat → String → PState →
    Except PErr (Node × PState)
  | 0, _, _ => .error .outOfFuel
  | fuel + 1, str, s =>
    parse_interp_loop fuel [Node.new_string str s.prev_loc] s.prev_loc s

/-- The chunk loop of `parse_interporated_string_literal`. -/
def parse_interp_loop : Nat → List Node → Loc → PState →
    Except PErr (Node × PState)
  | 0, _, _, _ => .error .outOfFuel
  | fuel + 1, nodes, startLoc, s =>
    match s.peek.kind with
    | .CloseDoubleQuote str2 => do
      let endLoc := s.loc
      let nodes := nodes ++ [Node.new_string str2 endLoc]
      let (_, s) ← s.get
      .ok (Node.new_interporated_string nodes (startLoc.merge endLoc), s)
    | .IntermediateDoubleQuote str2 => do
      let nodes := nodes ++ [Node.new_string str2 s.loc]
      let (_, s) ← s.get
      parse_interp_loop fuel nodes startLoc s
    | .OpenDoubleQuote str2 => do
      let (_, s) ← s.get
      let (_, s) ← parse_interporated_string_literal fuel str2 s
      parse_interp_loop fuel nodes startLoc s
    | .EOF => .error (error_unexpected s.loc "Unexpectd EOF.")
    | _ => do
      let (n, s) ← parse_comp_stmt fuel s
      parse_interp_loop fuel (nodes ++ [n]) startLoc s

/-- `Parser::parse_hash_literal` (entered with the `{` location). -/
def parse_hash_literal : Nat → Loc → PState → Except PErr (Node × PState)
  | 0, _, _ => .error .outOfFuel
  | fuel + 1, loc, s => parse_hash_loop fuel [] loc s

/-- The entry loop of `parse_hash_literal`. -/
def parse_hash_loop : Nat → List (Node × Node) → Loc → PState →
    Except PErr (Node × PState)
  | 0, _, _, _ => .error .outOfFuel
  | fuel + 1, kvp, loc, s =>
    match s.consume_punct .RBrace with
    | (true, s) => .ok (Node.new_hash kvp (loc.merge s.prev_loc), s)
    | (false, s) => do
      let identLoc := s.loc
      let (key, symbolFlag, s) ←
        if s.peek.can_be_symbol then do
          let s := s.save_state
          let (token, s) ← s.get
          let ident := PState.token_as_symbol token
          match s.consume_punct .Colon with
          | (true, s) =>
            let s := s.discard_state
            let id := PState.get_ident_id ident
            pure (Node.new_symbol id identLoc, true, s)
          | (false, s) => do
            let s := s.restore_state
            let (k, s) ← parse_arg fuel s
            pure (k, false, s)
        else do
          let (k, s) ← parse_arg fuel s
          pure (k, false, s)
      let s ←
        if symbolFlag then pure s
        else do
          let (_, s) ← s.expect_punct .FatArrow
          pure s
      let (value, s) ← parse_arg fuel s
      let kvp := kvp ++ [(key, value)]
      match s.consume_punct .Comma with
      | (true, s) => parse_hash_loop fuel kvp loc s
      | (false, s) => do
        let (_, s) ← s.expect_punct .RBrace
        .ok (Node.new_hash kvp (loc.merge s.prev_loc), s)

/-- `Parser::parse_if_then`. -/
def parse_if_then : Nat → PState → Except PErr (Node × PState)
  | 0, _ => .error .outOfFuel
  | fuel + 1, s => do
    let loc := s.prev_loc
    let (cond, s) ← parse_expr fuel s
    let (_, s) ← parse_then s
    let (then_, s) ← parse_comp_stmt fuel s
    let (else_, s) ←
      match s.consume_reserved .Elsif with
      | (true, s) => parse_if_then fuel s
      | (false, s) =>
        match s.consume_reserved .Else with
        | (true, s) => parse_comp_stmt fuel s
        | (false, s) => pure (Node.new_comp_stmt [] s.loc, s)
    .ok (Node.new_if cond then_ else_ loc, s)

/-- `Parser::parse_unless` (the parsed body goes to the else position of
the produced if-node). -/
def parse_unless : Nat → PState → Except PErr (Node × PState)
  | 0, _ => .error .outOfFuel
  | fuel + 1, s => do
    let loc := s.prev_loc
    let (cond, s) ← parse_expr fuel s
    let (_, s) ← parse_then s
    let (then_, s) ← parse_comp_stmt fuel s
    let (else_, s) ←
      match s.consume_reserved .Else with
      | (true, s) => parse_comp_stmt fuel s
      | (false, s) => pure (Node.new_comp_stmt [] s.loc, s)
    .ok (Node.new_if cond else_ then_ loc, s)

/-- `Parser::parse_def`. -/
def parse_def : Nat → PState → Except PErr (Node × PState)
  | 0, _ => .error .outOfFuel
  | fuel + 1, s => do
    let (tok, s) ← s.get
    let (isClassMethod, id, s) ←
      match tok.kind with
      | .Reserved .Self_ => do
        let (_, s) ← s.expect_punct .Dot
        let (id, s) ← s.expect_ident
        pure (true, id, s)
      | .Ident name hasSuffix =>
        if hasSuffix then do
          let (t2, s) ← s.get
          match t2.kind with
          | .Punct .Question => pure (false, PState.get_ident_id (name ++ "?"), s)
          | .Punct .Not => pure (false, PState.get_ident_id (name ++ "!"), s)
          | _ => Except.error (error_unexpected tok.loc "Illegal method name.")
        else
          (match s.peek_no_term.kind with
           | .Punct .Assign => do
             let (_, s) ← s.get
             pure (false, PState.get_ident_id (name ++ "="), s)
           | _ => pure (false, PState.get_ident_id name, s))
      | .Punct .Plus => pure (false, PState.get_ident_id "+", s)
      | .Punct .Minus => pure (false, PState.get_ident_id "-", s)
      | .Punct .Mul => pure (false, PState.get_ident_id "*", s)
      | _ => Except.error (error_unexpected s.loc "Expected identifier or operator.")
    let s := s.push_context Context.new_method
    let (args, s) ← parse_params fuel s
    let (body, s) ← parse_comp_stmt fuel s
    let (_, s) ← s.expect_reserved .End
    let (lvar, s) := s.pop_context
    if isClassMethod then .ok (Node.new_class_method_decl id args body lvar, s)
    else .ok (Node.new_method_decl id args body lvar, s)

/-- `Parser::parse_params`. -/
def parse_params : Nat → PState → Except PErr (List Node × PState)
  | 0, _ => .error .outOfFuel
  | fuel + 1, s =>
    match s.consume_term with
    | (true, s) => .ok ([], s)
    | (false, s) =>
      let (parenFlag, s) := s.consume_punct .LParen
      if parenFlag then
        match s.consume_punct .RParen with
        | (true, s) =>
          (match s.consume_term with
           | (false, s) => .error (error_unexpected s.loc "Expect terminator")
           | (true, s) => .ok ([], s))
        | (false, s) => parse_params_loop fuel parenFlag ParamKind.Reqired [] s
      else parse_params_loop fuel parenFlag ParamKind.Reqired [] s

/-- The parameter loop of `parse_params`, carrying the ordering state
machine. -/
def parse_params_loop : Nat → Bool → ParamKind → List Node → PState →
    Except PErr (List Node × PState)
  | 0, _, _, _, _ => .error .outOfFuel
  | fuel + 1, parenFlag, state, args, s =>
    let loc := s.loc
    match s.consume_punct .BitAnd with
    | (true, s) => do
      let (id, s) ← s.expect_ident
      let loc := loc.merge s.prev_loc
      let args := args ++ [Node.new_block_param id loc]
      let (_, s) ← s.new_block_param id loc
      parse_params_fin fuel parenFlag args s
    | (false, s) =>
      match s.consume_punct .Mul with
      | (true, s) => do
        let (id, s) ← s.expect_ident
        let loc := loc.merge s.prev_loc
        if ParamKind.Rest.idx ≤ state.idx then
          Except.error (error_unexpected loc
            "Splat parameter is not allowed in ths position.")
        else do
          let args := args ++ [Node.new_splat_param id loc]
          let (_, s) ← s.new_param id s.prev_loc
          parse_params_step fuel parenFlag ParamKind.Rest args s
      | (false, s) => do
        let (id, s) ← s.expect_ident
        match s.consume_punct .Assign with
        | (true, s) => do
          let (default, s) ← parse_arg fuel s
          let loc := loc.merge s.prev_loc
          let state ←
            match state with
            | .Reqired => pure ParamKind.Optional
            | .Optional => pure ParamKind.Optional
            | _ =>
              Except.error (error_unexpected loc
                "Optional parameter is not allowed in ths position.")
          let args := args ++ [Node.new_optional_param id default loc]
          let (_, s) ← s.new_param id loc
          parse_params_step fuel parenFlag state args s
        | (false, s) =>
          match s.consume_punct_no_term .Colon with
          | (true, s) => do
            let (default, s) ←
              if s.peek_no_term.kind = TokenKind.Punct .Comma then
                pure ((none : Option Node), s)
              else do
                let (d, s) ← parse_arg fuel s
                pure (some d, s)
            let loc := loc.merge s.prev_loc
            if state = ParamKind.KWRest then
              Except.error (error_unexpected loc
                "Keyword parameter is not allowed in ths position.")
            else do
              let args := args ++ [Node.new_keyword_param id default loc]
              let (_, s) ← s.new_param id loc
              parse_params_step fuel parenFlag ParamKind.KeyWord args s
          | (false, s) =>
            let loc := s.prev_loc
            match state with
            | .Reqired => do
              let args := args ++ [Node.new_param id loc]
              let (_, s) ← s.new_param id loc
              parse_params_step fuel parenFlag state args s
            | .PostReq | .Optional | .Rest => do
              let args := args ++ [Node.new_post_param id loc]
              let (_, s) ← s.new_param id loc
              parse_params_step fuel parenFlag ParamKind.PostReq args s
            | _ =>
              Except.error (error_unexpected loc
                "Required parameter is not allowed in ths position.")

/-- The loop-footer of `parse_params`: continue on `,`, else finish. -/
def parse_params_step : Nat → Bool → ParamKind → List Node → PState →
    Except PErr (List Node × PState)
  | 0, _, _, _, _ => .error .outOfFuel
  | fuel + 1, parenFlag, state, args, s =>
    match s.consume_punct_no_term .Comma with
    | (true, s) => parse_params_loop fuel parenFlag state args s
    | (false, s) => parse_params_fin fuel parenFlag args s

/-- The tail of `parse_params`: closing `)` (when opened) and a required
terminator. -/
def parse_params_fin : Nat → Bool → List Node → PState →
    Except PErr (List Node × PState)
  | 0, _, _, _ => .error .outOfFuel
  | _ + 1, parenFlag, args, s => do
    let s ←
      if parenFlag then do
        let (_, s) ← s.expect_punct .RParen
        pure s
      else pure s
    match s.consume_term with
    | (false, s) => .error (error_unexpected s.loc "Expect terminator.")
    | (true, s) => .ok (args, s)

/-- `Parser::parse_class` (both `class` and `module`). -/
def parse_class : Nat → Bool → PState → Except PErr (Node × PState)
  | 0, _, _ => .error .outOfFuel
  | fuel + 1, isModule, s => do
    let loc := s.loc
    let (tokName, s) ← s.get
    let name ←
      match tokName.kind with
      | .Const n => pure n
      | _ =>
        Except.error (error_unexpected loc "Class/Module name must be CONSTANT.")
    let (superclass, s) ←
      match s.consume_punct_no_term .Lt with
      | (true, s) =>
        if isModule then
          Except.error (error_unexpected s.prev_loc "Unexpected '<'.")
        else parse_expr fuel s
      | (false, s) => pure (Node.new_const IdentId.placeholder false loc, s)
    let (_, s) := s.consume_term
    let id := PState.get_ident_id name
    let s := s.push_context (Context.new_class none)
    let (body, s) ← parse_comp_stmt fuel s
    let (_, s) ← s.expect_reserved .End
    let (lvar, s) := s.pop_context
    .ok (Node.new_class_decl id superclass body lvar isModule loc, s)

end

/-- `Parser::parse_program`: tokenized input, one outermost Class scope;
the whole token stream must be consumed.  Returns the program node and
the toplevel `LvarCollector`. -/
def parse_program (fuel : Nat) (tokens : List Token) :
    Except PErr (Node × LvarCollector) :=
  let s : PState := ⟨tokens, 0, 0, [Context.new_class none], []⟩
  match parse_comp_stmt fuel s with
  | .error e => .error e
  | .ok (node, s) =>
    let (lvar, s) := s.pop_context
    if s.peek.kind = TokenKind.EOF then .ok (node, lvar)
    else .error (error_unexpected s.peek.loc "Expected end-of-input.")

/-! ## Concrete programs and result projections used by the claims -/

/-- Build a token whose location is the single byte `i`. -/
def tokAt (k : TokenKind) (i : Nat) : Token := ⟨k, ⟨i, i⟩⟩

/-- The parsed program node, when parsing succeeded. -/
def parsedNode (r : Except PErr (Node × LvarCollector)) : Option Node :=
  match r with
  | .ok (n, _) => some n
  | .error _ => none

/-- The kind of the `i`-th toplevel statement of a parse result. -/
def nthStmtKind (r : Except PErr (Node × LvarCollector)) (i : Nat) :
    Option NodeKind :=
  match parsedNode r with
  | some n =>
    (match n.kind with
     | .CompStmt ns => (ns.get? i).map Node.kind
     | _ => none)
  | none => none

/-- The parse error's kind, when parsing failed with a `RubyError`. -/
def parseErrKind (r : Except PErr (Node × LvarCollector)) :
    Option ParseErrKind :=
  match r with
  | .error (.rubyErr e) => some e.kind
  | _ => none

/-- The name of a method/class-method declaration node kind. -/
def declName (k : NodeKind) : Option IdentId :=
  match k with
  | .MethodDecl id _ _ _ => some id
  | .ClassMethodDecl id _ _ _ => some id
  | _ => none

/-- The kind of the `i`-th statement of a method declaration's body. -/
def declBodyStmtKind (k : NodeKind) (i : Nat) : Option NodeKind :=
  match k with
  | .MethodDecl _ _ body _ =>
    (match body.kind with
     | .CompStmt ns => (ns.get? i).map Node.kind
     | _ => none)
  | _ => none

/-- The kinds of a method declaration's parameter nodes. -/
def declParamKinds (k : NodeKind) : Option (List NodeKind) :=
  match k with
  | .MethodDecl _ params _ _ => some (params.map Node.kind)
  | _ => none

/-- The method name of a `Send` node kind. -/
def sendMethod (k : NodeKind) : Option IdentId :=
  match k with
  | .Send _ m _ _ _ _ => some m
  | _ => none

/-- The kinds of a `Send` node kind's positional arguments. -/
def sendArgKinds (k : NodeKind) : Option (List NodeKind) :=
  match k with
  | .Send _ _ args _ _ _ => some (args.map Node.kind)
  | _ => none

/-- Tokens of `x = 1 ; x`. -/
def toksAssignThenRead : List Token :=
  [tokAt (.Ident "x" false) 0, tokAt (.Punct .Assign) 2, tokAt (.NumLit 1) 4,
   tokAt (.Punct .Semi) 5, tokAt (.Ident "x" false) 7, tokAt .EOF 8]

/-- Tokens of `f ( x ) ; x = 1`. -/
def toksReadThenAssign : List Token :=
  [tokAt (.Ident "f" false) 0, tokAt (.Punct .LParen) 1,
   tokAt (.Ident "x" false) 2, tokAt (.Punct .RParen) 3,
   tokAt (.Punct .Semi) 4, tokAt (.Ident "x" false) 6,
   tokAt (.Punct .Assign) 8, tokAt (.NumLit 1) 10, tokAt .EOF 11]

/-- Tokens of `a , b = 1 , 2 ; a ; b`. -/
def toksMulAssign : List Token :=
  [tokAt (.Ident "a" false) 0, tokAt (.Punct .Comma) 1,
   tokAt (.Ident "b" false) 2, tokAt (.Punct .Assign) 4, tokAt (.NumLit 1) 6,
   tokAt (.Punct .Comma) 7, tokAt (.NumLit 2) 8, tokAt (.Punct .Semi) 9,
   tokAt (.Ident "a" false) 11, tokAt (.Punct .Semi) 12,
   tokAt (.Ident "b" false) 14, tokAt .EOF 15]

/-- Tokens of `def f \n def g \n end \n end` (a `def` nested inside a
`def`). -/
def toksNestedDef : List Token :=
  [tokAt (.Reserved .Def) 0, tokAt (.Ident "f" false) 4, tokAt .LineTerm 5,
   tokAt (.Reserved .Def) 6, tokAt (.Ident "g" false) 10, tokAt .LineTerm 11,
   tokAt (.Reserved .End) 12, tokAt .LineTerm 15,
   tokAt (.Reserved .End) 16, tokAt .EOF 19]

/-- Tokens of `def f ( a , * b , * c ) \n end` (two rest parameters). -/
def toksTwoRest : List Token :=
  [tokAt (.Reserved .Def) 0, tokAt (.Ident "f" false) 4,
   tokAt (.Punct .LParen) 5, tokAt (.Ident "a" false) 6,
   tokAt (.Punct .Comma) 7, tokAt (.Punct .Mul) 8, tokAt (.Ident "b" false) 9,
   tokAt (.Punct .Comma) 10, tokAt (.Punct .Mul) 11,
   tokAt (.Ident "c" false) 12, tokAt (.Punct .RParen) 13, tokAt .LineTerm 14,
   tokAt (.Reserved .End) 15, tokAt .EOF 18]

/-- Tokens of `def f ( a , * b , c ) \n end` (required after rest). -/
def toksPostAfterRest : List Token :=
  [tokAt (.Reserved .Def) 0, tokAt (.Ident "f" false) 4,
   tokAt (.Punct .LParen) 5, tokAt (.Ident "a" false) 6,
   tokAt (.Punct .Comma) 7, tokAt (.Punct .Mul) 8, tokAt (.Ident "b" false) 9,
   tokAt (.Punct .Comma) 10, tokAt (.Ident "c" false) 11,
   tokAt (.Punct .RParen) 12, tokAt .LineTerm 13,
   tokAt (.Reserved .End) 14, tokAt .EOF 17]

/-- Tokens of `def f ( a = 1 , c ) \n end` (required after optional). -/
def toksPostAfterOptional : List Token :=
  [tokAt (.Reserved .Def) 0, tokAt (.Ident "f" false) 4,
   tokAt (.Punct .LParen) 5, tokAt (.Ident "a" false) 6,
   tokAt (.Punct .Assign) 7, tokAt (.NumLit 1) 8, tokAt (.Punct .Comma) 9,
   tokAt (.Ident "c" false) 10, tokAt (.Punct .RParen) 11, tokAt .LineTerm 12,
   tokAt (.Reserved .End) 13, tokAt .EOF 16]

/-- Tokens of `def f ( a , a ) \n end` (duplicate parameter name). -/
def toksDupParam : List Token :=
  [tokAt (.Reserved .Def) 0, tokAt (.Ident "f" false) 4,
   tokAt (.Punct .LParen) 5, tokAt (.Ident "a" false) 6,
   tokAt (.Punct .Comma) 7, tokAt (.Ident "a" false) 8,
   tokAt (.Punct .RParen) 9, tokAt .LineTerm 10,
   tokAt (.Reserved .End) 11, tokAt .EOF 14]

/-- Tokens of `def f ( k : 1 , c ) \n end` (required after keyword). -/
def toksReqAfterKeyword : List Token :=
  [tokAt (.Reserved .Def) 0, tokAt (.Ident "f" false) 4,
   tokAt (.Punct .LParen) 5, tokAt (.Ident "k" false) 6,
   tokAt (.Punct .Colon) 7, tokAt (.NumLit 1) 8, tokAt (.Punct .Comma) 9,
   tokAt (.Ident "c" false) 10, tokAt (.Punct .RParen) 11, tokAt .LineTerm 12,
   tokAt (.Reserved .End) 13, tokAt .EOF 16]

/-! ## Theorems -/

/-- **C3.** The claim assigns `dup` to the 1-byte pure-stack group, but
`inst_size` places `DUP` in the 5-byte group of ops with a 32-bit
operand: `inst_size(DUP) = 5 ≠ 1`. -/
theorem C3_counterexample :
    Inst.inst_size Inst.DUP = 5 ∧ ¬ Inst.inst_size Inst.DUP = 1 := by
  decide

/-- **C3 (amended).** `Inst::inst_size` returns the size stated by the
layout table with `dup` in the 5-byte group (not the 1-byte group): 1
byte for END/RETURN, the nil/true/false/self pushes, the non-cached
arithmetic (`SUB DIV REM POW`), the comparisons, the logic/shift/bit ops,
`CONCAT_STRING`, `CREATE_RANGE`, `CREATE_REGEXP`, `TO_S`, `SPLAT`,
`POP`; 5 bytes for the 32-bit-operand ops (string/symbol pushes,
const/ivar/gvar get/set, array-element get/set, create
array/proc/hash, jumps, `TAKE`, `DUP`, and the inline-cached
`ADD`/`MUL`/`ADDI`/`SUBI`); 9 bytes for `PUSH_FIXNUM`/`PUSH_FLONUM` and
`SET_LOCAL`/`GET_LOCAL`; 10 for `DEF_CLASS`; 13 for `OPT_CASE`; 21 for
`SEND`/`SEND_SELF`. -/
theorem C3_inst_size_table :
    Inst.inst_size Inst.END_ = 1 ∧ Inst.inst_size Inst.PUSH_NIL = 1 ∧
    Inst.inst_size Inst.PUSH_TRUE = 1 ∧ Inst.inst_size Inst.PUSH_FALSE = 1 ∧
    Inst.inst_size Inst.PUSH_SELF = 1 ∧ Inst.inst_size Inst.SUB = 1 ∧
    Inst.inst_size Inst.DIV = 1 ∧ Inst.inst_size Inst.REM = 1 ∧
    Inst.inst_size Inst.POW = 1 ∧ Inst.inst_size Inst.EQ = 1 ∧
    Inst.inst_size Inst.NE = 1 ∧ Inst.inst_size Inst.TEQ = 1 ∧
    Inst.inst_size Inst.GT = 1 ∧ Inst.inst_size Inst.GE = 1 ∧
    Inst.inst_size Inst.NOT = 1 ∧ Inst.inst_size Inst.SHR = 1 ∧
    Inst.inst_size Inst.SHL = 1 ∧ Inst.inst_size Inst.BIT_OR = 1 ∧
    Inst.inst_size Inst.BIT_AND = 1 ∧ Inst.inst_size Inst.BIT_XOR = 1 ∧
    Inst.inst_size Inst.BIT_NOT = 1 ∧ Inst.inst_size Inst.CONCAT_STRING = 1 ∧
    Inst.inst_size Inst.CREATE_RANGE = 1 ∧
    Inst.inst_size Inst.CREATE_REGEXP = 1 ∧
    Inst.inst_size Inst.TO_S = 1 ∧ Inst.inst_size Inst.SPLAT = 1 ∧
    Inst.inst_size Inst.POP = 1 ∧ Inst.inst_size Inst.RETURN = 1 ∧
    Inst.inst_size Inst.PUSH_STRING = 5 ∧
    Inst.inst_size Inst.PUSH_SYMBOL = 5 ∧
    Inst.inst_size Inst.GET_CONST = 5 ∧ Inst.inst_size Inst.SET_CONST = 5 ∧
    Inst.inst_size Inst.GET_CONST_TOP = 5 ∧
    Inst.inst_size Inst.GET_SCOPE = 5 ∧
    Inst.inst_size Inst.GET_INSTANCE_VAR = 5 ∧
    Inst.inst_size Inst.SET_INSTANCE_VAR = 5 ∧
    Inst.inst_size Inst.GET_GLOBAL_VAR = 5 ∧
    Inst.inst_size Inst.SET_GLOBAL_VAR = 5 ∧
    Inst.inst_size Inst.GET_ARRAY_ELEM = 5 ∧
    Inst.inst_size Inst.SET_ARRAY_ELEM = 5 ∧
    Inst.inst_size Inst.CREATE_ARRAY = 5 ∧
    Inst.inst_size Inst.CREATE_PROC = 5 ∧
    Inst.inst_size Inst.CREATE_HASH = 5 ∧ Inst.inst_size Inst.JMP = 5 ∧
    Inst.inst_size Inst.JMP_IF_FALSE = 5 ∧ Inst.inst_size Inst.TAKE = 5 ∧
    Inst.inst_size Inst.DUP = 5 ∧ Inst.inst_size Inst.ADD = 5 ∧
    Inst.inst_size Inst.MUL = 5 ∧ Inst.inst_size Inst.ADDI = 5 ∧
    Inst.inst_size Inst.SUBI = 5 ∧
    Inst.inst_size Inst.PUSH_FIXNUM = 9 ∧
    Inst.inst_size Inst.PUSH_FLONUM = 9 ∧
    Inst.inst_size Inst.SET_LOCAL = 9 ∧ Inst.inst_size Inst.GET_LOCAL = 9 ∧
    Inst.inst_size Inst.DEF_CLASS = 10 ∧ Inst.inst_size Inst.OPT_CASE = 13 ∧
    Inst.inst_size Inst.SEND = 21 ∧ Inst.inst_size Inst.SEND_SELF = 21 := by
  decide

/-- **C4.** `is_local_var` scans the context stack from the innermost
frame outward and returns true exactly when the stack splits as an inner
run of Block frames, none of which binds `id`, followed by a frame whose
local table does bind `id`: it returns true as soon as a frame's table
contains `id`, walks past a frame only when that frame is a Block, and
returns false at the first Method or Class frame lacking `id` — so blocks
see enclosing locals up to and including the enclosing method's, but
never across a method or class boundary. -/
theorem C4_is_local_var_scan (stack : List Context) (id : IdentId) :
    is_local_var stack id = true ↔
    ∃ pre c post, stack = pre ++ c :: post ∧
      (∀ b ∈ pre, b.kind = ContextKind.Block ∧
        lvarLookup b.lvar.table id = none) ∧
      (lvarLookup c.lvar.table id).isSome = true := by
  induction stack with
  | nil =>
    simp [is_local_var]
  | cons hd tl ih =>
    by_cases h : (lvarLookup hd.lvar.table id).isSome = true
    · simp only [is_local_var, h, if_true]
      constructor
      · intro _
        exact ⟨[], hd, tl, rfl, by simp, h⟩
      · intro _
        trivial
    · by_cases hk : hd.kind = ContextKind.Block
      · have hstep : is_local_var (hd :: tl) id = is_local_var tl id := by
          simp [is_local_var, h, hk]
        rw [hstep, ih]
        constructor
        · rintro ⟨pre, c, post, heq, hpre, hc⟩
          refine ⟨hd :: pre, c, post, by rw [heq]; rfl, ?_, hc⟩
          intro b hb
          rcases List.mem_cons.mp hb with rfl | hb
          · exact ⟨hk, by simpa using h⟩
          · exact hpre b hb
        · rintro ⟨pre, c, post, heq, hpre, hc⟩
          cases pre with
          | nil =>
            simp only [List.nil_append, List.cons.injEq] at heq
            rcases heq with ⟨rfl, rfl⟩
            exact absurd hc h
          | cons p ps =>
            simp only [List.cons_append, List.cons.injEq] at heq
            rcases heq with ⟨rfl, rfl⟩
            exact ⟨ps, c, post, rfl, fun b hb => hpre b (by simp [hb]), hc⟩
      · have hstep : is_local_var (hd :: tl) id = false := by
          simp [is_local_var, h, hk]
        rw [hstep]
        constructor
        · intro hfalse
          cases hfalse
        · rintro ⟨pre, c, post, heq, hpre, hc⟩
          cases pre with
          | nil =>
            simp only [List.nil_append, List.cons.injEq] at heq
            rcases heq with ⟨rfl, rfl⟩
            exact absurd hc h
          | cons p ps =>
            simp only [List.cons_append, List.cons.injEq] at heq
            rcases heq with ⟨rfl, rfl⟩
            exact absurd (hpre hd (by simp)).1 hk

/-- The old value returned by the map-model `insert` is exactly the
current binding. -/
theorem lvarTableInsert_fst (t : List (IdentId × LvarId)) (k : IdentId)
    (v : LvarId) : (lvarTableInsert t k v).1 = lvarLookup t k := by
  induction t with
  | nil => rfl
  | cons hd tl ih =>
    rcases hd with ⟨k', v'⟩
    by_cases h : k' = k <;> simp [lvarTableInsert, lvarLookup, h, ih]

/-- Inserting an absent key appends the new entry. -/
theorem lvarTableInsert_none (t : List (IdentId × LvarId)) (k : IdentId)
    (v : LvarId) (h : lvarLookup t k = none) :
    (lvarTableInsert t k v).2 = t ++ [(k, v)] := by
  induction t with
  | nil => rfl
  | cons hd tl ih =>
    rcases hd with ⟨k', v'⟩
    by_cases hk : k' = k
    · simp [lvarLookup, hk] at h
    · simp only [lvarLookup, if_neg hk] at h
      simp [lvarTableInsert, hk, ih h]

/-- Lookup distributes over append, preferring the left table. -/
theorem lvarLookup_append (t₁ t₂ : List (IdentId × LvarId)) (k : IdentId) :
    lvarLookup (t₁ ++ t₂) k =
      match lvarLookup t₁ k with
      | some v => some v
      | none => lvarLookup t₂ k := by
  induction t₁ with
  | nil => rfl
  | cons hd tl ih =>
    rcases hd with ⟨k', v'⟩
    by_cases h : k' = k <;> simp [lvarLookup, h, ih]

/-- Inserting for a key that misses the head entry distributes over the
tail. -/
theorem lvarTableInsert_cons_ne (k' : IdentId) (v' : LvarId)
    (rest : List (IdentId × LvarId)) (k : IdentId) (v : LvarId)
    (h : ¬ k' = k) :
    lvarTableInsert ((k', v') :: rest) k v =
      ((lvarTableInsert rest k v).1,
        (k', v') :: (lvarTableInsert rest k v).2) := by
  simp only [lvarTableInsert, if_neg h]

/-- Lookup after the map-model `insert`. -/
theorem lvarTableInsert_lookup (t : List (IdentId × LvarId)) (k q : IdentId)
    (v : LvarId) :
    lvarLookup (lvarTableInsert t k v).2 q =
      if q = k then some v else lvarLookup t q := by
  induction t with
  | nil =>
    simp only [lvarTableInsert, lvarLookup]
    by_cases h : q = k
    · rw [if_pos h.symm, if_pos h]
    · rw [if_neg (fun hh => h hh.symm), if_neg h]
  | cons hd tl ih =>
    rcases hd with ⟨k', v'⟩
    by_cases hk : k' = k
    · subst hk
      simp only [lvarTableInsert, if_pos rfl, lvarLookup]
      by_cases hq : q = k'
      · simp only [if_pos hq, if_pos hq.symm]
      · have hq' : ¬ k' = q := fun hh => hq hh.symm
        simp only [if_neg hq, if_neg hq']
    · rw [lvarTableInsert_cons_ne k' v' tl k v hk]
      simp only [lvarLookup]
      by_cases hq : k' = q
      · have hqk : ¬ q = k := fun hh => hk (hq.trans hh)
        simp only [if_pos hq, if_neg hqk]
      · simp only [if_neg hq, ih]

/-- `insert_new` in closed form: the table is always updated; the fresh
id is returned (and `id` bumped) only when the key was absent. -/
theorem LvarCollector.insert_new_eq (c : LvarCollector) (v : IdentId) :
    c.insert_new v =
      match lvarLookup c.table v with
      | some _ =>
        (.error (), ⟨c.id, (lvarTableInsert c.table v c.id).2, c.block⟩)
      | none =>
        (.ok c.id, ⟨c.id + 1, (lvarTableInsert c.table v c.id).2, c.block⟩) := by
  have hfst := lvarTableInsert_fst c.table v c.id
  unfold LvarCollector.insert_new
  cases hres : lvarTableInsert c.table v c.id with
  | mk old t =>
    rw [hres] at hfst
    rw [← hfst]

/-- A successful `insert_new`: the key was absent, the returned id is the
next fresh one, and the entry is appended. -/
theorem LvarCollector.insert_new_ok_spec (c : LvarCollector) (v : IdentId)
    (i : LvarId) (c' : LvarCollector)
    (h : c.insert_new v = (.ok i, c')) :
    lvarLookup c.table v = none ∧ i = c.id ∧
    c'.table = c.table ++ [(v, c.id)] ∧ c'.id = c.id + 1 ∧
    c'.block = c.block := by
  rw [LvarCollector.insert_new_eq] at h
  cases hl : lvarLookup c.table v with
  | some j =>
    rw [hl] at h
    simp at h
  | none =>
    rw [hl] at h
    have ht := lvarTableInsert_none c.table v c.id hl
    simp only [Prod.mk.injEq, Except.ok.injEq] at h
    rcases h with ⟨hi, hc⟩
    subst hc
    exact ⟨rfl, hi.symm, by simpa using ht, rfl, rfl⟩

/-- A successful `insert_block_param` delegates to `insert_new` and only
records the returned slot as the block parameter. -/
theorem LvarCollector.insert_block_param_ok_spec (c : LvarCollector)
    (v : IdentId) (i : LvarId) (c' : LvarCollector)
    (h : c.insert_block_param v = (.ok i, c')) :
    lvarLookup c.table v = none ∧ i = c.id ∧
    c'.table = c.table ++ [(v, c.id)] ∧ c'.id = c.id + 1 ∧
    c'.block = some i := by
  unfold LvarCollector.insert_block_param at h
  cases hin : c.insert_new v with
  | mk r c'' =>
    rw [hin] at h
    cases r with
    | error e => simp at h
    | ok j =>
      simp only [Prod.mk.injEq, Except.ok.injEq] at h
      rcases h with ⟨hij, hc⟩
      obtain ⟨h1, h2, h3, h4, _⟩ :=
        LvarCollector.insert_new_ok_spec c v j c'' hin
      refine ⟨h1, hij ▸ h2, ?_, ?_, ?_⟩
      · rw [← hc]
        exact h3
      · rw [← hc]
        exact h4
      · rw [← hc, ← hij]

/-- The collectors reachable from `LvarCollector::new` by `insert` and by
successful `insert_new`/`insert_block_param` — exactly the collectors the
parser ever holds. -/
inductive LvarReachable : LvarCollector → Prop where
  | new : LvarReachable LvarCollector.new
  | insert (c : LvarCollector) (v : IdentId) :
      LvarReachable c → LvarReachable (c.insert v).2
  | insert_new (c : LvarCollector) (v : IdentId) (i : LvarId)
      (c' : LvarCollector) :
      LvarReachable c → c.insert_new v = (.ok i, c') → LvarReachable c'
  | insert_block_param (c : LvarCollector) (v : IdentId) (i : LvarId)
      (c' : LvarCollector) :
      LvarReachable c → c.insert_block_param v = (.ok i, c') →
      LvarReachable c'

/-- **C6.** For every reachable `LvarCollector`, the assigned `LvarId`s
are, in insertion order, exactly `0, 1, …, id-1` (dense, monotone,
starting at 0); every operation preserves existing entries (no
removals); and inserting the same `IdentId` twice returns the same
`LvarId` while leaving the collector unchanged (`insert` is idempotent
per identifier). -/
theorem C6_lvar_collector_invariants :
    (∀ c : LvarCollector, LvarReachable c →
      c.table.map Prod.snd = List.range c.id) ∧
    (∀ (c : LvarCollector) (v k : IdentId),
      (lvarLookup c.table k).isSome = true →
      (lvarLookup ((c.insert v).2).table k).isSome = true ∧
      (lvarLookup ((c.insert_new v).2).table k).isSome = true ∧
      (lvarLookup ((c.insert_block_param v).2).table k).isSome = true) ∧
    (∀ (c : LvarCollector) (v : IdentId),
      ((c.insert v).2).insert v = ((c.insert v).1, (c.insert v).2)) := by
  refine ⟨?_, ?_, ?_⟩
  · intro c h
    induction h with
    | new => rfl
    | insert c v _ ih =>
      unfold LvarCollector.insert
      cases hl : lvarLookup c.table v with
      | some i => simpa using ih
      | none => simp [ih, List.range_succ]
    | insert_new c v i c' _ heq ih =>
      obtain ⟨_, _, ht, hid, _⟩ := LvarCollector.insert_new_ok_spec c v i c' heq
      rw [ht, hid, List.map_append, ih, List.range_succ]
      rfl
    | insert_block_param c v i c' _ heq ih =>
      obtain ⟨_, _, ht, hid, _⟩ :=
        LvarCollector.insert_block_param_ok_spec c v i c' heq
      rw [ht, hid, List.map_append, ih, List.range_succ]
      rfl
  · intro c v k hk
    refine ⟨?_, ?_, ?_⟩
    · unfold LvarCollector.insert
      cases hl : lvarLookup c.table v with
      | some i => simpa using hk
      | none =>
        simp only
        rw [lvarLookup_append]
        cases hlk : lvarLookup c.table k with
        | some j => simp
        | none => rw [hlk] at hk; simp at hk
    · rw [LvarCollector.insert_new_eq]
      cases hl : lvarLookup c.table v <;>
        simp [lvarTableInsert_lookup] <;>
        by_cases hqk : k = v <;> simp [hqk] <;> simpa [hqk] using hk
    · unfold LvarCollector.insert_block_param
      rw [LvarCollector.insert_new_eq]
      cases hl : lvarLookup c.table v <;>
        simp [lvarTableInsert_lookup] <;>
        by_cases hqk : k = v <;> simp [hqk] <;> simpa [hqk] using hk
  · intro c v
    unfold LvarCollector.insert
    cases hl : lvarLookup c.table v with
    | some i => simp [hl]
    | none =>
      simp only [hl]
      rw [lvarLookup_append, hl]
      simp [lvarLookup]

/-- Witness for C6 at concrete inputs: the collector obtained by
inserting `"x"` into a fresh collector. -/
theorem C6_witness :
    (((LvarCollector.new.insert "x").2).table.map Prod.snd =
      List.range ((LvarCollector.new.insert "x").2).id) ∧
    (lvarLookup ((((LvarCollector.new.insert "x").2).insert "y").2).table
      "x").isSome = true ∧
    (((LvarCollector.new.insert "x").2).insert "x" =
      ((LvarCollector.new.insert "x").1, (LvarCollector.new.insert "x").2)) :=
  ⟨C6_lvar_collector_invariants.1 _
      (LvarReachable.insert LvarCollector.new "x" LvarReachable.new),
   (C6_lvar_collector_invariants.2.1 (LvarCollector.new.insert "x").2 "y" "x"
      (by decide)).1,
   C6_lvar_collector_invariants.2.2 (LvarCollector.new.insert "x").2 "x"⟩

/-- Length of the Rust iteration list `a..b`. -/
theorem intRange_length (a b : Int) :
    (intRange a b).length = (b - a).toNat := by
  rw [intRange, List.length_map, List.length_range]

/-- The `i`-th element of `a..b` is `a + i`. -/
theorem intRange_getD (a b : Int) (i : Nat) (h : i < (b - a).toNat) :
    (intRange a b).getD i 0 = a + i := by
  unfold intRange
  rw [List.getD_eq_getElem?_getD, List.getElem?_map, List.getElem?_range h]
  rfl

/-- Membership in `a..b`. -/
theorem intRange_mem (a b x : Int) : x ∈ intRange a b ↔ a ≤ x ∧ x < b := by
  simp only [intRange, List.mem_map, List.mem_range]
  constructor
  · rintro ⟨k, hk, rfl⟩
    omega
  · rintro ⟨h1, h2⟩
    exact ⟨(x - a).toNat, by omega, by omega⟩

/-- **C7.** On a range with fixnum bounds `a` and `b`, `to_a` returns the
array of fixnums `[a, a+1, …, b]` — whose length is `b-a+1` when `a ≤ b`
and which is empty otherwise — and for an exclusive range the array stops
before `b`. -/
theorem C7_range_toa (a b : Int) :
    range_toa (Value.range (.fixnum a) (.fixnum b) false) =
      .ok (.array ((intRange a (b + 1)).map Value.fixnum)) ∧
    (a ≤ b → ((intRange a (b + 1)).length : Int) = b - a + 1) ∧
    (¬ a ≤ b → intRange a (b + 1) = []) ∧
    (∀ i : Nat, i < (intRange a (b + 1)).length →
      (intRange a (b + 1)).getD i 0 = a + i) ∧
    range_toa (Value.range (.fixnum a) (.fixnum b) true) =
      .ok (.array ((intRange a b).map Value.fixnum)) ∧
    b ∉ intRange a b := by
  refine ⟨rfl, ?_, ?_, ?_, rfl, ?_⟩
  · intro h
    rw [intRange_length]
    omega
  · intro h
    have h0 : (b + 1 - a).toNat = 0 := by omega
    simp only [intRange, h0]
    rfl
  · intro i hi
    rw [intRange_length] at hi
    exact intRange_getD a (b + 1) i hi
  · rw [intRange_mem]
    omega

/-- Witness for C7 at `a = 1`, `b = 3`. -/
theorem C7_witness :
    ((intRange 1 (3 + 1)).length : Int) = 3 - 1 + 1 ∧
    (intRange 1 (3 + 1)).getD 1 0 = 1 + 1 :=
  ⟨(C7_range_toa 1 3).2.1 (by decide),
   (C7_range_toa 1 3).2.2.2.1 1 (by decide)⟩

/-- Running the block over every element succeeds and records exactly
those elements, in order. -/
theorem runBlockList_ok (f : Int → Except BuiltinErr Value) (g : Int → Value)
    (l : List Int) (h : ∀ i ∈ l, f i = .ok (g i)) :
    runBlockList f l = (.ok (), l) := by
  induction l with
  | nil => rfl
  | cons hd tl ih =>
    simp only [runBlockList]
    rw [h hd (by simp), ih (fun i hi => h i (by simp [hi]))]

/-- Collecting the block's results over every element succeeds, returns
the mapped values, and records exactly those elements, in order. -/
theorem mapBlockList_ok (f : Int → Except BuiltinErr Value) (g : Int → Value)
    (l : List Int) (h : ∀ i ∈ l, f i = .ok (g i)) :
    mapBlockList f l = (.ok (l.map g), l) := by
  induction l with
  | nil => rfl
  | cons hd tl ih =>
    simp only [mapBlockList]
    rw [h hd (by simp), ih (fun i hi => h i (by simp [hi]))]
    rfl

/-- **C9.** `Integer#times` returns nil without running the block when
the receiver is below 1 or no block is given; otherwise it runs the
block once per `i` in `0, 1, …, n-1` — `intRange 0 n`, whose `i`-th
element is `i` — and returns the receiver. -/
theorem C9_integer_times (n : Int) (f : Int → Except BuiltinErr Value)
    (g : Int → Value) :
    (n < 1 → ∀ block, integer_times (.fixnum n) block = (.ok .nil, [])) ∧
    (integer_times (.fixnum n) none = (.ok .nil, [])) ∧
    (1 ≤ n → (∀ i, f i = .ok (g i)) →
      integer_times (.fixnum n) (some f) = (.ok (.fixnum n), intRange 0 n)) ∧
    ((intRange 0 n).length = n.toNat) ∧
    (∀ i : Nat, i < n.toNat → (intRange 0 n).getD i 0 = (i : Int)) := by
  refine ⟨?_, ?_, ?_, ?_, ?_⟩
  · intro h block
    simp [integer_times, Value.as_fixnum, h]
  · by_cases h : n < 1 <;> simp [integer_times, Value.as_fixnum, h]
  · intro h1 hf
    have h2 : ¬ n < 1 := by omega
    simp [integer_times, Value.as_fixnum, h2,
      runBlockList_ok f g (intRange 0 n) (fun i _ => hf i)]
  · rw [intRange_length]
    omega
  · intro i hi
    rw [intRange_getD 0 n i (by omega)]
    omega

/-- Witness for C9 at `n = 3` (block runs) and `n = 0` (returns nil). -/
theorem C9_witness :
    integer_times (.fixnum 3) (some (fun _ => .ok .nil)) =
      (.ok (.fixnum 3), intRange 0 3) ∧
    integer_times (.fixnum 0) (some (fun _ => .ok .nil)) = (.ok .nil, []) ∧
    (intRange 0 3).getD 2 0 = (2 : Int) :=
  ⟨(C9_integer_times 3 (fun _ => .ok .nil) (fun _ => .nil)).2.2.1 (by decide)
      (fun _ => rfl),
   (C9_integer_times 0 (fun _ => .ok .nil) (fun _ => .nil)).1 (by decide)
      (some (fun _ => .ok .nil)),
   (C9_integer_times 3 (fun _ => .ok .nil) (fun _ => .nil)).2.2.2.2 2
      (by decide)⟩

/-- **C10.** `Range#each` and `Range#map` without a block fail with
`ArgumentError "Currently, needs block."` before touching anything (the
embedding is pure, so the range is trivially unchanged); with a block,
`each` runs it once per element of `start..end'`
(`end' = end + (exclude ? 0 : 1)`) in increasing order and returns the
receiver, while `map` returns the array of the block's results in
element order. -/
theorem C10_range_each_map (sa sb : Value) (ex : Bool) (a b : Int)
    (f : Int → Except BuiltinErr Value) (g : Int → Value) :
    (range_each (.range sa sb ex) none =
      (.error (.argumentErr "Currently, needs block."), [])) ∧
    (range_map (.range sa sb ex) none =
      (.error (.argumentErr "Currently, needs block."), [])) ∧
    ((∀ i, f i = .ok (g i)) →
      range_each (.range (.fixnum a) (.fixnum b) ex) (some f) =
        (.ok (.range (.fixnum a) (.fixnum b) ex),
          intRange a (b + if ex then 0 else 1)) ∧
      range_map (.range (.fixnum a) (.fixnum b) ex) (some f) =
        (.ok (.array ((intRange a (b + if ex then 0 else 1)).map g)),
          intRange a (b + if ex then 0 else 1))) ∧
    (∀ i : Nat, i < (intRange a (b + if ex then 0 else 1)).length →
      (intRange a (b + if ex then 0 else 1)).getD i 0 = a + i) := by
  refine ⟨rfl, rfl, ?_, ?_⟩
  · intro hf
    constructor
    · simp [range_each, Value.as_range, Value.expect_fixnum,
        runBlockList_ok f g _ (fun i _ => hf i)]
    · simp [range_map, Value.as_range, Value.expect_fixnum,
        mapBlockList_ok f g _ (fun i _ => hf i)]
  · intro i hi
    rw [intRange_length] at hi
    exact intRange_getD a (b + if ex then 0 else 1) i hi

/-- Witness for C10 at the inclusive range `1..3` with the identity-like
block `fixnum`. -/
theorem C10_witness :
    range_each (.range (.fixnum 1) (.fixnum 3) false)
        (some (fun i => .ok (.fixnum i))) =
      (.ok (.range (.fixnum 1) (.fixnum 3) false),
        intRange 1 (3 + if false then 0 else 1)) ∧
    range_map (.range (.fixnum 1) (.fixnum 3) false)
        (some (fun i => .ok (.fixnum i))) =
      (.ok (.array ((intRange 1 (3 + if false then 0 else 1)).map
        Value.fixnum)),
        intRange 1 (3 + if false then 0 else 1)) :=
  (C10_range_each_map (.fixnum 1) (.fixnum 3) false 1 3
    (fun i => .ok (.fixnum i)) Value.fixnum).2.2.1 (fun _ => rfl)

/-- After `add_local_var_if_new`, the identifier is a local of the
current scope (given a non-empty context stack, which the parser
maintains). -/
theorem add_local_var_if_new_is_local (s : PState) (id : IdentId)
    (c : Context) (rest : List Context)
    (hstack : s.contextStack = c :: rest) :
    (s.add_local_var_if_new id).is_local_var id = true := by
  unfold PState.add_local_var_if_new
  by_cases h : s.is_local_var id = true
  · rw [if_pos h]
    exact h
  · rw [if_neg h]
    have hlk : lvarLookup c.lvar.table id = none := by
      by_cases hh : (lvarLookup c.lvar.table id).isSome = true
      · exfalso
        apply h
        unfold PState.is_local_var
        rw [hstack]
        simp [is_local_var, hh]
      · exact Option.not_isSome_iff_eq_none.mp (by simpa using hh)
    rw [hstack]
    unfold PState.is_local_var
    simp only
    unfold LvarCollector.insert
    rw [hlk]
    simp only [is_local_var]
    rw [lvarLookup_append, hlk]
    simp [lvarLookup]

/-- **C2.** Assignment to a bare suffix-free identifier (`check_lhs`,
reached from the LHS of `=` — and, via the same
`add_local_var_if_new`, from each LHS of a multi-assign) registers it as
a local of the current scope; consequently in `x = 1 ; x` the second `x`
parses as a local-variable read node, while in `f(x); x = 1` the first
`x` (an argument occurring before any assignment to `x`) parses as an
identifier node, not a local-variable read; in `a, b = 1, 2 ; a ; b`
both multi-assign targets read back as locals. -/
theorem C2_assignment_promotes_local :
    (∀ (s : PState) (id : IdentId) (loc : Loc) (c : Context)
      (rest : List Context), s.contextStack = c :: rest →
      check_lhs (Node.new_identifier id false loc) s =
        .ok ((), s.add_local_var_if_new id) ∧
      (s.add_local_var_if_new id).is_local_var id = true) ∧
    nthStmtKind (parse_program 200 toksAssignThenRead) 1 =
      some (.LocalVar "x") ∧
    (nthStmtKind (parse_program 200 toksReadThenAssign) 0).bind sendMethod =
      some "f" ∧
    (nthStmtKind (parse_program 200 toksReadThenAssign) 0).bind sendArgKinds =
      some [.Ident "x" false] ∧
    nthStmtKind (parse_program 200 toksMulAssign) 1 = some (.LocalVar "a") ∧
    nthStmtKind (parse_program 200 toksMulAssign) 2 = some (.LocalVar "b") := by
  refine ⟨?_, rfl, rfl, rfl, rfl, rfl⟩
  intro s id loc c rest hstack
  exact ⟨rfl, add_local_var_if_new_is_local s id c rest hstack⟩

/-- Witness for C2's universal part at a concrete parser state (one
toplevel Class frame) and identifier `"z"`. -/
theorem C2_witness :
    check_lhs (Node.new_identifier "z" false ⟨0, 0⟩)
        ⟨[], 0, 0, [Context.new_class none], []⟩ =
      .ok ((), PState.add_local_var_if_new
        ⟨[], 0, 0, [Context.new_class none], []⟩ "z") ∧
    (PState.add_local_var_if_new
        ⟨[], 0, 0, [Context.new_class none], []⟩ "z").is_local_var "z" =
      true :=
  C2_assignment_promotes_local.1 ⟨[], 0, 0, [Context.new_class none], []⟩
    "z" ⟨0, 0⟩ (Context.new_class none) [] rfl

set_option maxHeartbeats 2000000 in
/-- **C5.** In a parameter list, a second rest parameter is rejected with
a syntax error; a required name after a rest or an optional parameter is
accepted as a post-required parameter; a required name after a keyword
parameter is rejected; and a duplicated parameter name fails with
"Duplicated argument name.". -/
theorem C5_param_rules :
    parseErrKind (parse_program 200 toksTwoRest) =
      some (.SyntaxError "Splat parameter is not allowed in ths position.") ∧
    (nthStmtKind (parse_program 200 toksPostAfterRest) 0).bind
        declParamKinds =
      some [.Param "a", .SplatParam "b", .PostParam "c"] ∧
    (nthStmtKind (parse_program 200 toksPostAfterOptional) 0).bind
        declParamKinds =
      some [.OptionalParam "a" (.mk (.Integer 1) ⟨8, 8⟩), .PostParam "c"] ∧
    parseErrKind (parse_program 200 toksDupParam) =
      some (.SyntaxError "Duplicated argument name.") ∧
    parseErrKind (parse_program 200 toksReqAfterKeyword) =
      some (.SyntaxError "Required parameter is not allowed in ths position.") :=
  ⟨rfl, rfl, rfl, rfl, rfl⟩

/-- A successful reserved-word consume means that word is under the
cursor. -/
theorem consume_rnslt_true_kind (s s' : PState) (r : Reserved)
    (h : s.consume_reserved_no_skip_line_term r = (true, s')) :
    s.peek_no_term.kind = TokenKind.Reserved r := by
  unfold PState.consume_reserved_no_skip_line_term at h
  by_cases hk : s.peek_no_term.kind = TokenKind.Reserved r
  · exact hk
  · rw [if_neg hk] at h
    simp at h

/-- A reserved-word consume for a different word fails and leaves the
state unchanged. -/
theorem consume_rnslt_false_of_ne (s : PState) (r r' : Reserved)
    (hne : r ≠ r') (hk : s.peek_no_term.kind = TokenKind.Reserved r) :
    s.consume_reserved_no_skip_line_term r' = (false, s) := by
  unfold PState.consume_reserved_no_skip_line_term
  rw [hk]
  simp [hne]

/-- **C8.** One pass of the statement-modifier loop of `parse_stmt`
desugars exactly as specified: `node if cond` rewrites `node` to an
if-node with `node` in the then branch and an empty comp-stmt else;
`node unless cond` puts `node` in the else branch; `node while cond`
builds a while-node with body `node`; `node until cond` builds a
while-node whose condition is the logical negation of `cond`. -/
theorem C8_stmt_modifiers (fuel : Nat) (node cond : Node)
    (s s1 s2 : PState) :
    (s.consume_reserved_no_skip_line_term .If = (true, s1) →
      parse_expr fuel s1 = .ok (cond, s2) →
      parse_stmt_modifiers (fuel + 1) node s =
        parse_stmt_modifiers fuel
          (Node.new_if cond node (Node.new_comp_stmt [] s1.prev_loc)
            s1.prev_loc) s2) ∧
    (s.consume_reserved_no_skip_line_term .Unless = (true, s1) →
      parse_expr fuel s1 = .ok (cond, s2) →
      parse_stmt_modifiers (fuel + 1) node s =
        parse_stmt_modifiers fuel
          (Node.new_if cond (Node.new_comp_stmt [] s1.prev_loc) node
            s1.prev_loc) s2) ∧
    (s.consume_reserved_no_skip_line_term .While = (true, s1) →
      parse_expr fuel s1 = .ok (cond, s2) →
      parse_stmt_modifiers (fuel + 1) node s =
        parse_stmt_modifiers fuel
          (Node.new_while cond node (s1.prev_loc.merge s2.prev_loc)) s2) ∧
    (s.consume_reserved_no_skip_line_term .Until = (true, s1) →
      parse_expr fuel s1 = .ok (cond, s2) →
      parse_stmt_modifiers (fuel + 1) node s =
        parse_stmt_modifiers fuel
          (Node.new_while (Node.new_unop .Not cond s1.prev_loc) node
            (s1.prev_loc.merge s2.prev_loc)) s2) := by
  refine ⟨?_, ?_, ?_, ?_⟩
  · intro h1 h2
    rw [parse_stmt_modifiers, h1]
    simp only [bind, Except.bind, h2]
  · intro h1 h2
    have hk := consume_rnslt_true_kind s s1 .Unless h1
    have hIf := consume_rnslt_false_of_ne s .Unless .If (by decide) hk
    rw [parse_stmt_modifiers, hIf, h1]
    simp only [bind, Except.bind, h2]
  · intro h1 h2
    have hk := consume_rnslt_true_kind s s1 .While h1
    have hIf := consume_rnslt_false_of_ne s .While .If (by decide) hk
    have hUnless := consume_rnslt_false_of_ne s .While .Unless (by decide) hk
    rw [parse_stmt_modifiers, hIf, hUnless, h1]
    simp only [bind, Except.bind, h2]
  · intro h1 h2
    have hk := consume_rnslt_true_kind s s1 .Until h1
    have hIf := consume_rnslt_false_of_ne s .Until .If (by decide) hk
    have hUnless := consume_rnslt_false_of_ne s .Until .Unless (by decide) hk
    have hWhile := consume_rnslt_false_of_ne s .Until .While (by decide) hk
    rw [parse_stmt_modifiers, hIf, hUnless, hWhile, h1]
    simp only [bind, Except.bind, h2]

/-- Tokens of a lone modifier tail: the modifier word, then `2`. -/
def modTokens (r : Reserved) : List Token :=
  [tokAt (.Reserved r) 0, tokAt (.NumLit 2) 1, tokAt .EOF 2]

/-- A parser state over `modTokens r`. -/
def modState (r : Reserved) (cur prev : Nat) : PState :=
  ⟨modTokens r, cur, prev, [Context.new_class none], []⟩

/-- Witness for C8: each modifier applied at a concrete state with the
already-parsed node `1` and condition `2`. -/
theorem C8_witness :
    (parse_stmt_modifiers 51 (Node.mk (.Integer 1) ⟨9, 9⟩)
        (modState .If 0 0) =
      parse_stmt_modifiers 50
        (Node.new_if (Node.mk (.Integer 2) ⟨1, 1⟩)
          (Node.mk (.Integer 1) ⟨9, 9⟩)
          (Node.new_comp_stmt [] ⟨0, 0⟩) ⟨0, 0⟩)
        (modState .If 2 1)) ∧
    (parse_stmt_modifiers 51 (Node.mk (.Integer 1) ⟨9, 9⟩)
        (modState .Unless 0 0) =
      parse_stmt_modifiers 50
        (Node.new_if (Node.mk (.Integer 2) ⟨1, 1⟩)
          (Node.new_comp_stmt [] ⟨0, 0⟩)
          (Node.mk (.Integer 1) ⟨9, 9⟩) ⟨0, 0⟩)
        (modState .Unless 2 1)) ∧
    (parse_stmt_modifiers 51 (Node.mk (.Integer 1) ⟨9, 9⟩)
        (modState .While 0 0) =
      parse_stmt_modifiers 50
        (Node.new_while (Node.mk (.Integer 2) ⟨1, 1⟩)
          (Node.mk (.Integer 1) ⟨9, 9⟩) (Loc.merge ⟨0, 0⟩ ⟨1, 1⟩))
        (modState .While 2 1)) ∧
    (parse_stmt_modifiers 51 (Node.mk (.Integer 1) ⟨9, 9⟩)
        (modState .Until 0 0) =
      parse_stmt_modifiers 50
        (Node.new_while
          (Node.new_unop .Not (Node.mk (.Integer 2) ⟨1, 1⟩) ⟨0, 0⟩)
          (Node.mk (.Integer 1) ⟨9, 9⟩) (Loc.merge ⟨0, 0⟩ ⟨1, 1⟩))
        (modState .Until 2 1)) :=
  ⟨(C8_stmt_modifiers 50 (Node.mk (.Integer 1) ⟨9, 9⟩)
      (Node.mk (.Integer 2) ⟨1, 1⟩) (modState .If 0 0)
      (modState .If 1 0) (modState .If 2 1)).1 rfl rfl,
   (C8_stmt_modifiers 50 (Node.mk (.Integer 1) ⟨9, 9⟩)
      (Node.mk (.Integer 2) ⟨1, 1⟩) (modState .Unless 0 0)
      (modState .Unless 1 0) (modState .Unless 2 1)).2.1 rfl rfl,
   (C8_stmt_modifiers 50 (Node.mk (.Integer 1) ⟨9, 9⟩)
      (Node.mk (.Integer 2) ⟨1, 1⟩) (modState .While 0 0)
      (modState .While 1 0) (modState .While 2 1)).2.2.1 rfl rfl,
   (C8_stmt_modifiers 50 (Node.mk (.Integer 1) ⟨9, 9⟩)
      (Node.mk (.Integer 2) ⟨1, 1⟩) (modState .Until 0 0)
      (modState .Until 1 0) (modState .Until 2 1)).2.2.2 rfl rfl⟩

/-- **C1 (counterexample).** The program `def f \n def g \n end \n end`
— a `def` lexically inside a `def`, i.e. parsed while the current
context frame has kind Method — parses successfully into a method
declaration `f` whose body's first statement is a method declaration
`g`; parsing does not fail. -/
theorem C1_counterexample :
    (nthStmtKind (parse_program 200 toksNestedDef) 0).bind declName =
      some "f" ∧
    ((nthStmtKind (parse_program 200 toksNestedDef) 0).bind
      (fun k => declBodyStmtKind k 0)).bind declName = some "g" :=
  ⟨rfl, rfl⟩

/-- **C1 (amended).** It is class and module definitions — not method
definitions — that are illegal inside Method contexts: whenever the
token fetched by `parse_primary` is `class` or `module` while the
innermost context frame has kind Method, parsing fails with the syntax
error "class definition in method body"; a `def` inside a Method context
is accepted (the nested-def program parses into nested method
declarations). -/
theorem C1_class_in_method_body :
    (∀ (fuel : Nat) (s s' : PState) (tok : Token) (c : Context)
      (rest : List Context), s.get = .ok (tok, s') →
      (tok.kind = TokenKind.Reserved .Class ∨
        tok.kind = TokenKind.Reserved .Module) →
      s'.contextStack = c :: rest → c.kind = ContextKind.Method →
      parse_primary (fuel + 1) s =
        .error (error_unexpected tok.loc
          "SyntaxError: class definition in method body.")) ∧
    ((nthStmtKind (parse_program 200 toksNestedDef) 0).bind declName =
      some "f") ∧
    (((nthStmtKind (parse_program 200 toksNestedDef) 0).bind
      (fun k => declBodyStmtKind k 0)).bind declName = some "g") := by
  refine ⟨?_, rfl, rfl⟩
  intro fuel s s' tok c rest hget hkind hstack hmethod
  rcases hkind with hkind | hkind <;>
  · rw [parse_primary, hget]
    simp only [bind, Except.bind, hkind, hstack, List.head?, hmethod]
    rfl

/-- Witness for C1's universal part: a `class` token under the cursor
with a Method frame innermost. -/
theorem C1_witness :
    parse_primary 10
        ⟨[tokAt (.Reserved .Class) 0, tokAt .EOF 1], 0, 0,
          [Context.new_method], []⟩ =
      .error (error_unexpected ⟨0, 0⟩
        "SyntaxError: class definition in method body.") :=
  C1_class_in_method_body.1 9
    ⟨[tokAt (.Reserved .Class) 0, tokAt .EOF 1], 0, 0,
      [Context.new_method], []⟩
    ⟨[tokAt (.Reserved .Class) 0, tokAt .EOF 1], 1, 0,
      [Context.new_method], []⟩
    (tokAt (.Reserved .Class) 0) Context.new_method [] rfl (Or.inl rfl) rfl
    rfl

end Ruruby
